import Mathlib

/-! GRUB `kern/powerpc/dl.c`: header validation and relocation

A shallow embedding of the two functions of `kern/powerpc/dl.c`

* `grub_arch_dl_check_header`
* `grub_arch_dl_relocate_symbols`

together with theorems about them.

Modelling conventions:

* The object image is the address `ehdr` points to together with a byte store
  indexed by the offset from that address (`Buffer`).  Pointers are 32 bits
  wide: a read at offset `off` is a read at `off mod 2 ^ 32`, and pointer
  comparisons are made on addresses modulo `2 ^ 32`.  The image is only ever
  read.
* Segment memory is a byte store indexed by absolute address (`Mem`).  The
  loader allocates segments separately from the object image, so the two
  stores are kept apart.
* The target is 32-bit big-endian PowerPC: multi-byte fields are read and
  written most significant byte first, `unsigned`/`Elf32_Word` arithmetic is
  taken modulo `2 ^ 32`, `Elf32_Half` is 16 bits wide, and `Elf32_Sword` is a
  two's complement 32-bit integer (an `Int` obtained through `to_s32`).
* The loop over the entries of a section, whose test `rel < max` compares
  pointers, is a recursion on a fuel of `sh_size / sh_entsize + 1`; the test
  fails within that many steps (`relocate_entries_eq_run`).
* `sh_size / sh_entsize` with `sh_entsize = 0` is a division by zero; the
  embedding reports it as the separate outcome `Outcome.undefined`.
-/

namespace Grub

/-! ## Byte stores -/

/-- The object image: the address `ehdr` points to, and the byte found at a
given offset from it. -/
structure Buffer where
  base : Nat
  bytes : Nat → Nat

/-- Segment memory: the byte found at a given absolute address. -/
abbrev Mem := Nat → Nat

/-- Read one byte of the image; the pointer `ehdr + off` is 32 bits wide. -/
def rd8 (b : Buffer) (off : Nat) : Nat := b.bytes (off % 4294967296) % 256

/-- Read a big-endian 16-bit field of the image. -/
def rd16 (b : Buffer) (off : Nat) : Nat := rd8 b off * 256 + rd8 b (off + 1)

/-- Read a big-endian 32-bit field of the image. -/
def rd32 (b : Buffer) (off : Nat) : Nat :=
  rd8 b off * 16777216 + rd8 b (off + 1) * 65536 + rd8 b (off + 2) * 256 + rd8 b (off + 3)

/-- Store one byte in memory. -/
def store8 (m : Mem) (a v : Nat) : Mem := fun x => if x = a then v % 256 else m x

/-- Store a 16-bit value (`Elf32_Half`), truncating it, most significant byte first. -/
def store16 (m : Mem) (a v : Nat) : Mem :=
  store8 (store8 m a (v / 256)) (a + 1) v

/-- Store a 32-bit value (`Elf32_Word`), truncating it, most significant byte first. -/
def store32 (m : Mem) (a v : Nat) : Mem :=
  store8 (store8 (store8 (store8 m a (v / 16777216)) (a + 1) (v / 65536)) (a + 2) (v / 256)) (a + 3) v

/-- Load a big-endian 16-bit value from memory. -/
def load16 (m : Mem) (a : Nat) : Nat := m a % 256 * 256 + m (a + 1) % 256

/-- Load a big-endian 32-bit value from memory. -/
def load32 (m : Mem) (a : Nat) : Nat :=
  m a % 256 * 16777216 + m (a + 1) % 256 * 65536 + m (a + 2) % 256 * 256 + m (a + 3) % 256

/-! ## Machine integers -/

/-- The two's complement reading of a 32-bit pattern (`Elf32_Sword`). -/
def to_s32 (n : Nat) : Int :=
  if n % 4294967296 < 2147483648 then ((n % 4294967296 : Nat) : Int)
  else ((n % 4294967296 : Nat) : Int) - 4294967296

/-- The 32-bit pattern of an integer (conversion to `Elf32_Word`). -/
def to_u32 (x : Int) : Nat := (x % 4294967296).toNat

/-- Left shift of a signed 32-bit integer, keeping the low 32 bits. -/
def shl_s32 (x : Int) (k : Nat) : Int := to_s32 (to_u32 (x * 2 ^ k))

/-- Arithmetic right shift of a signed 32-bit integer. -/
def sar_s32 (x : Int) (k : Nat) : Int := x / 2 ^ k

/-! ## Constants and layouts of `grub/elf.h` -/

/-- Modelled from the spec: `grub/elf.h` is not among the sources; index of the
first magic byte in `e_ident` (System V ABI value). -/
def EI_MAG0 : Nat := 0
/-- Modelled from the spec: `grub/elf.h` is not among the sources; index of the
second magic byte. -/
def EI_MAG1 : Nat := 1
/-- Modelled from the spec: `grub/elf.h` is not among the sources; index of the
third magic byte. -/
def EI_MAG2 : Nat := 2
/-- Modelled from the spec: `grub/elf.h` is not among the sources; index of the
fourth magic byte. -/
def EI_MAG3 : Nat := 3
/-- Modelled from the spec: `grub/elf.h` is not among the sources; index of the
word-size class byte. -/
def EI_CLASS : Nat := 4
/-- Modelled from the spec: `grub/elf.h` is not among the sources; index of the
byte-order byte. -/
def EI_DATA : Nat := 5
/-- Modelled from the spec: `grub/elf.h` is not among the sources; index of the
identification version byte. -/
def EI_VERSION : Nat := 6
/-- Modelled from the spec: `grub/elf.h` is not among the sources; magic byte `0x7f`. -/
def ELFMAG0 : Nat := 0x7f
/-- Modelled from the spec: `grub/elf.h` is not among the sources; magic byte `'E'`. -/
def ELFMAG1 : Nat := 0x45
/-- Modelled from the spec: `grub/elf.h` is not among the sources; magic byte `'L'`. -/
def ELFMAG2 : Nat := 0x4c
/-- Modelled from the spec: `grub/elf.h` is not among the sources; magic byte `'F'`. -/
def ELFMAG3 : Nat := 0x46
/-- Modelled from the spec: `grub/elf.h` is not among the sources; the 32-bit class. -/
def ELFCLASS32 : Nat := 1
/-- Modelled from the spec: `grub/elf.h` is not among the sources; big-endian data. -/
def ELFDATA2MSB : Nat := 2
/-- Modelled from the spec: `grub/elf.h` is not among the sources; current version. -/
def EV_CURRENT : Nat := 1
/-- Modelled from the spec: `grub/elf.h` is not among the sources; relocatable object. -/
def ET_REL : Nat := 1
/-- Modelled from the spec: `grub/elf.h` is not among the sources; PowerPC machine. -/
def EM_PPC : Nat := 20
/-- Modelled from the spec: `grub/elf.h` is not among the sources; symbol-table section. -/
def SHT_SYMTAB : Nat := 2
/-- Modelled from the spec: `grub/elf.h` is not among the sources; relocation section
with explicit addends. -/
def SHT_RELA : Nat := 4
/-- Modelled from the spec: `grub/elf.h` is not among the sources; word32 relocation. -/
def R_PPC_ADDR32 : Nat := 1
/-- Modelled from the spec: `grub/elf.h` is not among the sources; low-16 relocation. -/
def R_PPC_ADDR16_LO : Nat := 4
/-- Modelled from the spec: `grub/elf.h` is not among the sources; high-16-adjusted
relocation. -/
def R_PPC_ADDR16_HA : Nat := 6
/-- Modelled from the spec: `grub/elf.h` is not among the sources; relative-branch-24
relocation. -/
def R_PPC_REL24 : Nat := 10
/-- Modelled from the spec: `grub/elf.h` is not among the sources; `sizeof (Elf32_Ehdr)`. -/
def sizeof_Elf32_Ehdr : Nat := 52
/-- Modelled from the spec: `grub/elf.h` is not among the sources; `sizeof (Elf32_Rela)`. -/
def sizeof_Elf32_Rela : Nat := 12

/-- Modelled from the spec: `grub/elf.h` is not among the sources; symbol index of
a relocation `info` word, `ELF32_R_SYM (i) = i >> 8`. -/
def ELF32_R_SYM (info : Nat) : Nat := info >>> 8
/-- Modelled from the spec: `grub/elf.h` is not among the sources; type code of a
relocation `info` word, `ELF32_R_TYPE (i) = (unsigned char) i`. -/
def ELF32_R_TYPE (info : Nat) : Nat := info % 256

/-- Modelled from the spec: `Elf32_Ehdr` of `grub/elf.h`; `e->e_ident[i]`. -/
def e_ident (e : Buffer) (i : Nat) : Nat := rd8 e i
/-- Modelled from the spec: `Elf32_Ehdr` of `grub/elf.h`; `e->e_type` (offset 16). -/
def e_type (e : Buffer) : Nat := rd16 e 16
/-- Modelled from the spec: `Elf32_Ehdr` of `grub/elf.h`; `e->e_machine` (offset 18). -/
def e_machine (e : Buffer) : Nat := rd16 e 18
/-- Modelled from the spec: `Elf32_Ehdr` of `grub/elf.h`; `e->e_version` (offset 20). -/
def e_version (e : Buffer) : Nat := rd32 e 20
/-- Modelled from the spec: `Elf32_Ehdr` of `grub/elf.h`; `e->e_shoff` (offset 32). -/
def e_shoff (e : Buffer) : Nat := rd32 e 32
/-- Modelled from the spec: `Elf32_Ehdr` of `grub/elf.h`; `e->e_shentsize` (offset 46). -/
def e_shentsize (e : Buffer) : Nat := rd16 e 46
/-- Modelled from the spec: `Elf32_Ehdr` of `grub/elf.h`; `e->e_shnum` (offset 48). -/
def e_shnum (e : Buffer) : Nat := rd16 e 48

/-- Modelled from the spec: `Elf32_Shdr` of `grub/elf.h`; `s->sh_type` (offset 4). -/
def sh_type (e : Buffer) (s : Nat) : Nat := rd32 e (s + 4)
/-- Modelled from the spec: `Elf32_Shdr` of `grub/elf.h`; `s->sh_offset` (offset 16). -/
def sh_offset (e : Buffer) (s : Nat) : Nat := rd32 e (s + 16)
/-- Modelled from the spec: `Elf32_Shdr` of `grub/elf.h`; `s->sh_size` (offset 20). -/
def sh_size (e : Buffer) (s : Nat) : Nat := rd32 e (s + 20)
/-- Modelled from the spec: `Elf32_Shdr` of `grub/elf.h`; `s->sh_info` (offset 28). -/
def sh_info (e : Buffer) (s : Nat) : Nat := rd32 e (s + 28)
/-- Modelled from the spec: `Elf32_Shdr` of `grub/elf.h`; `s->sh_entsize` (offset 36). -/
def sh_entsize (e : Buffer) (s : Nat) : Nat := rd32 e (s + 36)

/-- Modelled from the spec: `Elf32_Sym` of `grub/elf.h`; `sym->st_value` (offset 4). -/
def st_value (e : Buffer) (sym : Nat) : Nat := rd32 e (sym + 4)

/-- Modelled from the spec: `Elf32_Rela` of `grub/elf.h`; `rel->r_offset` (offset 0). -/
def r_offset (e : Buffer) (rel : Nat) : Nat := rd32 e rel
/-- Modelled from the spec: `Elf32_Rela` of `grub/elf.h`; `rel->r_info` (offset 4). -/
def r_info (e : Buffer) (rel : Nat) : Nat := rd32 e (rel + 4)
/-- Modelled from the spec: `Elf32_Rela` of `grub/elf.h`; `rel->r_addend` (offset 8),
an `Elf32_Sword`. -/
def r_addend (e : Buffer) (rel : Nat) : Int := to_s32 (rd32 e (rel + 8))

/-! ## `grub/dl.h` and `grub/err.h` -/

/-- Modelled from the spec: `struct grub_dl_segment` of `grub/dl.h` (not among the
sources): the section index a segment was built from, its base address and its
size in bytes.  The `next` link is the tail of the list holding the segment. -/
structure grub_dl_segment where
  addr : Nat
  size : Nat
  section_ : Nat
deriving DecidableEq, Repr

/-- Modelled from the spec: `struct grub_dl` of `grub/dl.h` (not among the sources),
reduced to the chain `mod->segment`. -/
abbrev grub_dl_t := List grub_dl_segment

/-- What a call of `grub_arch_dl_relocate_symbols` yields: `GRUB_ERR_NONE`, the
value of `grub_error (GRUB_ERR_BAD_MODULE, msg)`, or the undefined behaviour of a
division by zero. -/
inductive Outcome where
  | GRUB_ERR_NONE
  | GRUB_ERR_BAD_MODULE (msg : String)
  | undefined
deriving DecidableEq, Repr

open Outcome

/-! ## `grub_arch_dl_check_header` -/

/-- Check if EHDR is a valid ELF header. -/
def grub_arch_dl_check_header (ehdr : Buffer) (size : Nat) : Nat :=
  -- Check the header size.
  if size < sizeof_Elf32_Ehdr then 0
  -- Check the magic numbers.
  else if !(e_ident ehdr EI_MAG0 == ELFMAG0
      && e_ident ehdr EI_MAG1 == ELFMAG1
      && e_ident ehdr EI_MAG2 == ELFMAG2
      && e_ident ehdr EI_MAG3 == ELFMAG3
      && e_ident ehdr EI_CLASS == ELFCLASS32
      && e_ident ehdr EI_DATA == ELFDATA2MSB
      && e_ident ehdr EI_VERSION == EV_CURRENT
      && e_type ehdr == ET_REL && e_machine ehdr == EM_PPC
      && e_version ehdr == EV_CURRENT) then 0
  -- Make sure that every section is within the core.
  else if size < (e_shoff ehdr + e_shentsize ehdr * e_shnum ehdr) % 4294967296 then 0
  else 1

/-! ## `grub_arch_dl_relocate_symbols` -/

/-- The first loop: walk `n` section headers starting at offset `s` and stop at
the first one of type `SHT_SYMTAB`; `none` when the loop runs to `i == e_shnum`. -/
def find_symtab (e : Buffer) : Nat → Nat → Option Nat
  | 0, _ => none
  | n + 1, s =>
    if sh_type e s = SHT_SYMTAB then some s
    else find_symtab e n (s + e_shentsize e)

/-- The search `for (seg = mod->segment; seg; seg = seg->next)` for the segment
built from section `info`. -/
def find_segment : grub_dl_t → Nat → Option grub_dl_segment
  | [], _ => none
  | seg :: next, info =>
    if seg.section_ = info then some seg else find_segment next info

/-- The patched location `addr = (char *) seg->addr + rel->r_offset`. -/
def reloc_addr (e : Buffer) (seg : grub_dl_segment) (rel : Nat) : Nat :=
  seg.addr + r_offset e rel

/-- The symbol record `sym = (char *) symtab + entsize * ELF32_R_SYM (rel->r_info)`,
as an offset into the image; the product is an `Elf32_Word` and the pointer sum
is 32 bits wide. -/
def reloc_sym (e : Buffer) (symtab entsize rel : Nat) : Nat :=
  (symtab + (entsize * ELF32_R_SYM (r_info e rel)) % 4294967296) % 4294967296

/-- The relocated value `value = sym->st_value + rel->r_addend`, a `grub_uint32_t`. -/
def reloc_value (e : Buffer) (symtab entsize rel : Nat) : Nat :=
  to_u32 ((st_value e (reloc_sym e symtab entsize rel) : Int) + r_addend e rel)

/-- The branch displacement `Elf32_Sword delta = value - (Elf32_Word) addr`. -/
def reloc_delta (e : Buffer) (seg : grub_dl_segment) (symtab entsize rel : Nat) : Int :=
  to_s32 (to_u32 ((reloc_value e symtab entsize rel : Int)
    - ((reloc_addr e seg rel % 4294967296 : Nat) : Int)))

/-- The body of the innermost loop for the entry at offset `rel`: bounds check,
symbol lookup, and the `switch` on the relocation type.  An error return leaves
the function, which the loops below pass on. -/
def relocate_entry (e : Buffer) (seg : grub_dl_segment) (symtab entsize rel : Nat)
    (m : Mem) : Outcome × Mem :=
  if seg.size < r_offset e rel then
    (GRUB_ERR_BAD_MODULE "reloc offset is out of the segment", m)
  else
    let addr := reloc_addr e seg rel
    -- On the PPC the value does not have an explicit addend, add it.
    let value := reloc_value e symtab entsize rel
    if ELF32_R_TYPE (r_info e rel) = R_PPC_ADDR16_LO then
      (GRUB_ERR_NONE, store16 m addr value)
    else if ELF32_R_TYPE (r_info e rel) = R_PPC_REL24 then
      let delta := reloc_delta e seg symtab entsize rel
      if sar_s32 (shl_s32 delta 6) 6 ≠ delta then
        (GRUB_ERR_BAD_MODULE "Relocation overflow", m)
      else
        (GRUB_ERR_NONE,
          store32 m addr ((load32 m addr &&& 0xfc000003) ||| (to_u32 delta &&& 0x3fffffc)))
    else if ELF32_R_TYPE (r_info e rel) = R_PPC_ADDR16_HA then
      (GRUB_ERR_NONE, store16 m addr (((value + 0x8000) % 4294967296) >>> 16))
    else if ELF32_R_TYPE (r_info e rel) = R_PPC_ADDR32 then
      (GRUB_ERR_NONE, store32 m addr value)
    else
      (GRUB_ERR_NONE, m)

/-- The pointer `max = rel + s->sh_size / s->sh_entsize` of the innermost loop,
as a 32-bit address: `rel` is `ehdr + sh_offset` and the count is scaled by
`sizeof (Elf32_Rela)`. -/
def entries_max (e : Buffer) (s : Nat) : Nat :=
  ((e.base + sh_offset e s) % 4294967296
    + sizeof_Elf32_Rela * (sh_size e s / sh_entsize e s)) % 4294967296

/-- The innermost loop `for (rel = ...; rel < max; rel++)`: `rel` is the offset
of the current entry from `ehdr`, the test compares the 32-bit addresses
`ehdr + rel` and `max`, and `rel++` advances the pointer by one `Elf32_Rela`.
The first argument is fuel; with none left the outcome is the undefined one. -/
def relocate_entries (e : Buffer) (seg : grub_dl_segment) (symtab entsize max : Nat) :
    Nat → Nat → Mem → Outcome × Mem
  | 0, _, m => (undefined, m)
  | fuel + 1, rel, m =>
    if (e.base + rel) % 4294967296 < max then
      if (relocate_entry e seg symtab entsize rel m).1 = GRUB_ERR_NONE then
        relocate_entries e seg symtab entsize max fuel
          ((rel + sizeof_Elf32_Rela) % 4294967296)
          (relocate_entry e seg symtab entsize rel m).2
      else relocate_entry e seg symtab entsize rel m
    else (GRUB_ERR_NONE, m)

/-- The second loop over the section headers: `n` headers left, the current one
at offset `s`. -/
def relocate_sections (mod : grub_dl_t) (e : Buffer) (symtab entsize : Nat) :
    Nat → Nat → Mem → Outcome × Mem
  | 0, _, m => (GRUB_ERR_NONE, m)
  | n + 1, s, m =>
    if sh_type e s = SHT_RELA then
      -- Find the target segment.
      match find_segment mod (sh_info e s) with
      | some seg =>
        if sh_entsize e s = 0 then (undefined, m)
        else if (relocate_entries e seg symtab entsize (entries_max e s)
            (sh_size e s / sh_entsize e s + 1) (sh_offset e s) m).1 = GRUB_ERR_NONE then
          relocate_sections mod e symtab entsize n (s + e_shentsize e)
            (relocate_entries e seg symtab entsize (entries_max e s)
              (sh_size e s / sh_entsize e s + 1) (sh_offset e s) m).2
        else
          relocate_entries e seg symtab entsize (entries_max e s)
            (sh_size e s / sh_entsize e s + 1) (sh_offset e s) m
      | none => relocate_sections mod e symtab entsize n (s + e_shentsize e) m
    else relocate_sections mod e symtab entsize n (s + e_shentsize e) m

/-- Relocate symbols. -/
def grub_arch_dl_relocate_symbols (mod : grub_dl_t) (ehdr : Buffer) (m : Mem) :
    Outcome × Mem :=
  -- Find a symbol table.
  match find_symtab ehdr (e_shnum ehdr) (e_shoff ehdr) with
  | none => (GRUB_ERR_BAD_MODULE "no symtab found", m)
  | some s =>
    relocate_sections mod ehdr (sh_offset ehdr s) (sh_entsize ehdr s)
      (e_shnum ehdr) (e_shoff ehdr) m

/-! ## Concrete object images

Builders for small object images, used to evaluate the two functions on
explicit inputs. -/

/-- The two bytes of a 16-bit value, most significant first. -/
def be16 (v : Nat) : List Nat := [v / 256 % 256, v % 256]

/-- The four bytes of a 32-bit value, most significant first. -/
def be32 (v : Nat) : List Nat :=
  [v / 16777216 % 256, v / 65536 % 256, v / 256 % 256, v % 256]

/-- The image holding the given bytes (zero beyond them), placed at address
`0x100000`. -/
def image (bytes : List Nat) : Buffer := ⟨0x100000, fun i => bytes.getD i 0⟩

/-- The 52 bytes of an `Elf32_Ehdr` of a big-endian 32-bit PowerPC relocatable
object with the given section-header table offset, entry size and entry count. -/
def mk_ehdr (shoff shentsize shnum : Nat) : List Nat :=
  [0x7f, 0x45, 0x4c, 0x46, 1, 2, 1, 0, 0, 0, 0, 0, 0, 0, 0, 0]
    ++ be16 1 ++ be16 20 ++ be32 1 ++ be32 0 ++ be32 0 ++ be32 shoff ++ be32 0
    ++ be16 52 ++ be16 0 ++ be16 0 ++ be16 shentsize ++ be16 shnum ++ be16 0

/-- The 40 bytes of an `Elf32_Shdr` with the given type, payload offset, payload
size, `info` and entry size. -/
def mk_shdr (type offset size info entsize : Nat) : List Nat :=
  be32 0 ++ be32 type ++ be32 0 ++ be32 0 ++ be32 offset ++ be32 size ++ be32 0
    ++ be32 info ++ be32 0 ++ be32 entsize

/-- The 16 bytes of an `Elf32_Sym` with the given value. -/
def mk_sym (value : Nat) : List Nat := be32 0 ++ be32 value ++ be32 0 ++ [0, 0] ++ be16 0

/-- The 12 bytes of an `Elf32_Rela`. -/
def mk_rela (offset info addend : Nat) : List Nat := be32 offset ++ be32 info ++ be32 addend

/-- All-zero segment memory. -/
def zero_mem : Mem := fun _ => 0

/-- A module with one segment: section 1 loaded at `0x1000`, 4 bytes long. -/
def one_segment : grub_dl_t := [⟨0x1000, 4, 1⟩]

/-- An object with a symbol table (one symbol of the given value, at offset 132)
and one `SHT_RELA` section for section 1 (at offset 148) holding the given
entries; the section-header table is at offset 52. -/
def mk_object (symval : Nat) (relas : List Nat) : Buffer :=
  image (mk_ehdr 52 40 2 ++ mk_shdr 2 132 16 0 16 ++ mk_shdr 4 148 relas.length 1 12
    ++ mk_sym symval ++ relas)

/-- A well-formed header followed by nothing. -/
def good_header : Buffer := image (mk_ehdr 52 40 0)

/-- The header `good_header` with the machine changed to 3 (`EM_386`). -/
def wrong_machine_header : Buffer :=
  ⟨good_header.base, fun i => if i = 19 then 3 else good_header.bytes i⟩

/-- A header with correct identification whose section-header table starts at
`0xffffffd8` and has one 40-byte entry, so that it ends at `2 ^ 32`. -/
def wrapping_header : Buffer := image (mk_ehdr 0xffffffd8 40 1)

/-- An object whose single `R_PPC_ADDR32` entry has `r_offset = 4`, the size of
the target segment of `one_segment`. -/
def offset_eq_size_object : Buffer := mk_object 0x11223344 (mk_rela 4 1 0)

/-! ## Auxiliary notions used in the statements -/

/-- Sign extension of a 16-bit field to an integer. -/
def sign_extend_16 (x : Nat) : Int :=
  if x % 65536 < 32768 then ((x % 65536 : Nat) : Int) else ((x % 65536 : Nat) : Int) - 65536

/-- Sign extension of a 26-bit field (sign in bit 25) to an integer. -/
def sign_extend_26 (x : Nat) : Int :=
  if x % 67108864 < 33554432 then ((x % 67108864 : Nat) : Int)
  else ((x % 67108864 : Nat) : Int) - 67108864

/-- An object with a `R_PPC_REL24` entry at `r_offset = 0` for a symbol of value
`0x2000fff`, so that `delta = 0x2000fff - 0x1000 = 2 ^ 25 - 1` for `one_segment`. -/
def max_delta_object : Buffer := mk_object 0x2000fff (mk_rela 0 10 0)

/-- An object with a `R_PPC_REL24` entry at `r_offset = 0` for a symbol of value
`0x2000ffc`, so that `delta = 2 ^ 25 - 4` for `one_segment`. -/
def aligned_delta_object : Buffer := mk_object 0x2000ffc (mk_rela 0 10 0)

/-- An object with a `R_PPC_REL24` entry at `r_offset = 0` for a symbol of value
`0x2001000`, so that `delta = 2 ^ 25` for `one_segment`. -/
def overflow_delta_object : Buffer := mk_object 0x2001000 (mk_rela 0 10 0)

/-- Segment memory holding the branch instruction `0x48000001` (`bl`) at `0x1000`. -/
def branch_mem : Mem := store32 zero_mem 0x1000 0x48000001

/-- An object with a `R_PPC_ADDR16_HA` entry at `r_offset = 0` and a
`R_PPC_ADDR16_LO` entry at `r_offset = 2`, both for a symbol of value
`0x12348765` with addend 0. -/
def ha_lo_object : Buffer := mk_object 0x12348765 (mk_rela 0 6 0 ++ mk_rela 2 4 0)

/-! ## The sequence of relocation entries of a call -/

/-- The offsets from `ehdr` of the entries the innermost loop visits when no
entry makes the function return: the loop of `relocate_entries` without its
body. -/
def entry_offsets (base max : Nat) : Nat → Nat → List Nat
  | 0, _ => []
  | fuel + 1, rel =>
    if (base + rel) % 4294967296 < max then
      rel :: entry_offsets base max fuel ((rel + sizeof_Elf32_Rela) % 4294967296)
    else []

/-- The entries the innermost loop visits for the section header at offset `s`,
each with its target segment: none unless the section is `SHT_RELA` with a loaded
target, else the records at the offsets `entry_offsets` lists. -/
def section_entries (mod : grub_dl_t) (e : Buffer) (s : Nat) :
    List (grub_dl_segment × Nat) :=
  if sh_type e s = SHT_RELA then
    match find_segment mod (sh_info e s) with
    | some seg =>
      (entry_offsets e.base (entries_max e s) (sh_size e s / sh_entsize e s + 1)
        (sh_offset e s)).map fun rel => (seg, rel)
    | none => []
  else []

/-- The entries of `n` consecutive section headers starting at offset `s`, in
section-header-table order. -/
def entries_from (mod : grub_dl_t) (e : Buffer) : Nat → Nat → List (grub_dl_segment × Nat)
  | 0, _ => []
  | n + 1, s => section_entries mod e s ++ entries_from mod e n (s + e_shentsize e)

/-- All relocation entries of an object for a module, in the order in which
`grub_arch_dl_relocate_symbols` visits them. -/
def all_entries (mod : grub_dl_t) (e : Buffer) : List (grub_dl_segment × Nat) :=
  entries_from mod e (e_shnum e) (e_shoff e)

/-- Process a list of entries in order with `relocate_entry`, stopping at the
first error. -/
def run_entries (e : Buffer) (symtab entsize : Nat) :
    List (grub_dl_segment × Nat) → Mem → Outcome × Mem
  | [], m => (GRUB_ERR_NONE, m)
  | p :: rest, m =>
    if (relocate_entry e p.1 symtab entsize p.2 m).1 = GRUB_ERR_NONE then
      run_entries e symtab entsize rest (relocate_entry e p.1 symtab entsize p.2 m).2
    else relocate_entry e p.1 symtab entsize p.2 m

/-- The memory obtained by applying the patches of a list of entries in order. -/
def apply_entries (e : Buffer) (symtab entsize : Nat) (l : List (grub_dl_segment × Nat))
    (m : Mem) : Mem :=
  l.foldl (fun mm p => (relocate_entry e p.1 symtab entsize p.2 mm).2) m

/-- The number of bytes the `switch` stores for a relocation type: 2 for the
`Elf32_Half` stores, 4 for the `Elf32_Word` stores, none for other types. -/
def reloc_width (type : Nat) : Nat :=
  if type = R_PPC_ADDR16_LO then 2
  else if type = R_PPC_REL24 then 4
  else if type = R_PPC_ADDR16_HA then 2
  else if type = R_PPC_ADDR32 then 4
  else 0

/-- An object with one `R_PPC_ADDR32` entry at `r_offset = 0` for a symbol of
value `0x11223344` and addend 1. -/
def addr32_object : Buffer := mk_object 0x11223344 (mk_rela 0 1 1)

/-- An object without a symbol table: its only section header (at offset 52) is an
`SHT_RELA` section for section 1 with one `R_PPC_ADDR32` entry at offset 92. -/
def no_symtab_object : Buffer :=
  image (mk_ehdr 52 40 1 ++ mk_shdr 4 92 12 1 12 ++ mk_rela 0 1 0)

/-- An object with three section headers (at offsets 52, 92 and 132): a symbol
table at 172 with one symbol of value `0x11223344`, an `SHT_RELA` section for
section 7 at 188 whose only entry has `r_offset = 0xffffffff`, and an `SHT_RELA`
section for section 1 at 200 with one `R_PPC_ADDR32` entry at `r_offset = 0`. -/
def skipped_section_object : Buffer :=
  image (mk_ehdr 52 40 3 ++ mk_shdr 2 172 16 0 16 ++ mk_shdr 4 188 12 7 12
    ++ mk_shdr 4 200 12 1 12 ++ mk_sym 0x11223344 ++ mk_rela 0xffffffff 1 0 ++ mk_rela 0 1 0)

/-- An object whose first entry has the unassigned type code 99 at `r_offset = 0`
and whose second entry is an `R_PPC_ADDR16_LO` at `r_offset = 2`, both for a
symbol of value `0x11223344`. -/
def unknown_type_object : Buffer :=
  mk_object 0x11223344 (mk_rela 0 99 0 ++ mk_rela 2 4 0)

/-- The bytes of an object whose section-header table has `e_shentsize = 39`, one
less than the size of an `Elf32_Shdr`: header 0 (a symbol table) is at offset 52,
header 1 (an `SHT_RELA` section for section 1 with `sh_size = 12`) at offset 91,
so that the last byte of header 1, the low byte of its `sh_entsize`, is at offset
130 and holds `entsize`.  The symbol (value `0x11223344`) is at offset 131 and one
`R_PPC_ADDR32` entry at offset 147. -/
def short_stride_bytes (entsize : Nat) : List Nat :=
  mk_ehdr 52 39 2 ++ (mk_shdr 2 131 16 0 16).take 39 ++ [16]
    ++ (mk_shdr 4 147 12 1 entsize).drop 1 ++ mk_sym 0x11223344 ++ mk_rela 0 1 0

/-- The object `short_stride_bytes` with `sh_entsize = 12` in header 1. -/
def short_stride_object : Buffer := image (short_stride_bytes 12)

/-- The object `short_stride_bytes` with `sh_entsize = 13` in header 1; it differs
from `short_stride_object` in the byte at offset 130 only. -/
def short_stride_object_alt : Buffer := image (short_stride_bytes 13)

/-- An object with three section headers: a symbol table at offset 172 with
`sh_entsize = 32` holding the symbol values `0xaaaa0000` (index 0, record at 172)
and `0x11223344` (index 1, record at 204); an `SHT_RELA` section for section 1 at
offset 236 with one `R_PPC_ADDR32` entry for symbol index 1; and a second symbol
table at offset 248 holding the value `0x99999999`. -/
def stride_object : Buffer :=
  image (mk_ehdr 52 40 3 ++ mk_shdr 2 172 64 0 32 ++ mk_shdr 4 236 12 1 12
    ++ mk_shdr 2 248 16 0 16
    ++ mk_sym 0xaaaa0000 ++ List.replicate 16 0 ++ mk_sym 0x11223344 ++ List.replicate 16 0
    ++ mk_rela 0 0x101 0 ++ mk_sym 0x99999999)

/-- An object whose `SHT_RELA` section has `sh_size = 30` and `sh_entsize = 12`:
two `R_PPC_ADDR16_LO` entries (at offsets 0 and 2) followed by 6 more bytes. -/
def floor_count_object : Buffer :=
  mk_object 0x11223344 (mk_rela 0 4 0 ++ mk_rela 2 4 0 ++ [0, 0, 0, 0, 0, 0])

/-- An object whose `SHT_RELA` section for the loaded section 1 has
`sh_entsize = 0`. -/
def zero_entsize_object : Buffer :=
  image (mk_ehdr 52 40 2 ++ mk_shdr 2 132 16 0 16 ++ mk_shdr 4 148 12 1 0
    ++ mk_sym 0x11223344 ++ mk_rela 0 1 0)

/-! ## The section headers read by the two loops -/

/-- The first loop `find_symtab` together with the offsets of the section
headers it reads, in order. -/
def find_symtab_traced (e : Buffer) : Nat → Nat → Option Nat × List Nat
  | 0, _ => (none, [])
  | n + 1, s =>
    if sh_type e s = SHT_SYMTAB then (some s, [s])
    else ((find_symtab_traced e n (s + e_shentsize e)).1,
      s :: (find_symtab_traced e n (s + e_shentsize e)).2)

/-- The second loop `relocate_sections` together with the offsets of the section
headers it reads, in order. -/
def relocate_sections_traced (mod : grub_dl_t) (e : Buffer) (symtab entsize : Nat) :
    Nat → Nat → Mem → (Outcome × Mem) × List Nat
  | 0, _, m => ((GRUB_ERR_NONE, m), [])
  | n + 1, s, m =>
    if sh_type e s = SHT_RELA then
      match find_segment mod (sh_info e s) with
      | some seg =>
        if sh_entsize e s = 0 then ((undefined, m), [s])
        else if (relocate_entries e seg symtab entsize (entries_max e s)
            (sh_size e s / sh_entsize e s + 1) (sh_offset e s) m).1 = GRUB_ERR_NONE then
          ((relocate_sections_traced mod e symtab entsize n (s + e_shentsize e)
              (relocate_entries e seg symtab entsize (entries_max e s)
                (sh_size e s / sh_entsize e s + 1) (sh_offset e s) m).2).1,
            s :: (relocate_sections_traced mod e symtab entsize n (s + e_shentsize e)
              (relocate_entries e seg symtab entsize (entries_max e s)
                (sh_size e s / sh_entsize e s + 1) (sh_offset e s) m).2).2)
        else
          (relocate_entries e seg symtab entsize (entries_max e s)
            (sh_size e s / sh_entsize e s + 1) (sh_offset e s) m, [s])
      | none =>
        ((relocate_sections_traced mod e symtab entsize n (s + e_shentsize e) m).1,
          s :: (relocate_sections_traced mod e symtab entsize n (s + e_shentsize e) m).2)
    else
      ((relocate_sections_traced mod e symtab entsize n (s + e_shentsize e) m).1,
        s :: (relocate_sections_traced mod e symtab entsize n (s + e_shentsize e) m).2)

/-- An object whose `SHT_RELA` section for the loaded section 1 has
`sh_size = 0x80000000` and `sh_entsize = 1`, so that the count is `2 ^ 31` and the
end pointer `rel + count`, advanced by `12 * 2 ^ 31` bytes, is `rel` again; the
record at `sh_offset` is an `R_PPC_ADDR32` entry at `r_offset = 0` for a symbol of
value `0x11223344`. -/
def wrapping_count_object : Buffer :=
  image (mk_ehdr 52 40 2 ++ mk_shdr 2 132 16 0 16 ++ mk_shdr 4 148 0x80000000 1 1
    ++ mk_sym 0x11223344 ++ mk_rela 0 1 0)

/-! ## Theorems -/

set_option maxRecDepth 100000

/-! ### Loads and stores -/

theorem store8_same (m : Mem) (a v : Nat) : store8 m a v a = v % 256 := by
  simp [store8]

theorem store8_other (m : Mem) (a v x : Nat) (h : x ≠ a) : store8 m a v x = m x := by
  simp [store8, h]

theorem store16_other (m : Mem) (a v x : Nat) (h : x < a ∨ a + 2 ≤ x) :
    store16 m a v x = m x := by
  unfold store16
  rw [store8_other _ _ _ _ (by omega), store8_other _ _ _ _ (by omega)]

theorem store32_other (m : Mem) (a v x : Nat) (h : x < a ∨ a + 4 ≤ x) :
    store32 m a v x = m x := by
  unfold store32
  rw [store8_other _ _ _ _ (by omega), store8_other _ _ _ _ (by omega),
    store8_other _ _ _ _ (by omega), store8_other _ _ _ _ (by omega)]

theorem load16_store16 (m : Mem) (a v : Nat) : load16 (store16 m a v) a = v % 65536 := by
  unfold load16 store16
  rw [store8_other _ _ _ _ (by omega), store8_same, store8_same]
  omega

theorem load32_store32 (m : Mem) (a v : Nat) :
    load32 (store32 m a v) a = v % 4294967296 := by
  unfold load32 store32
  rw [store8_other _ _ _ a (by omega), store8_other _ _ _ a (by omega),
    store8_other _ _ _ a (by omega), store8_same,
    store8_other _ _ _ (a + 1) (by omega), store8_other _ _ _ (a + 1) (by omega), store8_same,
    store8_other _ _ _ (a + 2) (by omega), store8_same, store8_same]
  omega

theorem rd8_lt (b : Buffer) (off : Nat) : rd8 b off < 256 := Nat.mod_lt _ (by decide)

theorem rd32_lt (b : Buffer) (off : Nat) : rd32 b off < 4294967296 := by
  have h0 := rd8_lt b off
  have h1 := rd8_lt b (off + 1)
  have h2 := rd8_lt b (off + 2)
  have h3 := rd8_lt b (off + 3)
  unfold rd32
  omega

/-! ### Machine integers -/

theorem to_u32_lt (x : Int) : to_u32 x < 4294967296 := by
  unfold to_u32
  omega

theorem to_s32_range (n : Nat) : -2147483648 ≤ to_s32 n ∧ to_s32 n < 2147483648 := by
  unfold to_s32
  split <;> omega

theorem shift_check_iff (x : Int) (h : -2147483648 ≤ x) (h2 : x < 2147483648) :
    sar_s32 (shl_s32 x 6) 6 = x ↔ (-33554432 ≤ x ∧ x < 33554432) := by
  unfold sar_s32 shl_s32 to_s32 to_u32
  norm_num
  split <;> omega

theorem reloc_value_lt (e : Buffer) (symtab entsize rel : Nat) :
    reloc_value e symtab entsize rel < 4294967296 := to_u32_lt _

theorem reloc_delta_range (e : Buffer) (seg : grub_dl_segment) (symtab entsize rel : Nat) :
    -2147483648 ≤ reloc_delta e seg symtab entsize rel
      ∧ reloc_delta e seg symtab entsize rel < 2147483648 := to_s32_range _

/-! ### Bit masks -/

theorem testBit_field_mask (i : Nat) :
    Nat.testBit 0x3fffffc i = (decide (2 ≤ i) && decide (i < 26)) := by
  by_cases h : i < 26
  · interval_cases i <;> rfl
  · rw [Nat.testBit_lt_two_pow (i := i)]
    · simp [h]
    · calc 0x3fffffc < 2 ^ 26 := by norm_num
        _ ≤ 2 ^ i := Nat.pow_le_pow_right (by norm_num) (by omega)

theorem testBit_reserved_mask (i : Nat) :
    Nat.testBit 0xfc000003 i = (decide (i < 2) || (decide (26 ≤ i) && decide (i < 32))) := by
  by_cases h : i < 32
  · interval_cases i <;> rfl
  · rw [Nat.testBit_lt_two_pow (i := i)]
    · have : ¬ i < 2 := by omega
      simp [h, this]
    · calc 0xfc000003 < 2 ^ 32 := by norm_num
        _ ≤ 2 ^ i := Nat.pow_le_pow_right (by norm_num) (by omega)

theorem merge_reserved (old d : Nat) :
    ((old &&& 0xfc000003) ||| (d &&& 0x3fffffc)) &&& 0xfc000003 = old &&& 0xfc000003 := by
  apply Nat.eq_of_testBit_eq
  intro i
  simp only [Nat.testBit_and, Nat.testBit_or, testBit_field_mask, testBit_reserved_mask]
  by_cases h1 : i < 2 <;> by_cases h2 : 26 ≤ i <;> by_cases h3 : i < 32 <;>
    by_cases h4 : 2 ≤ i <;> by_cases h5 : i < 26 <;> simp [h1, h2, h3, h4, h5] <;> omega

theorem merge_field (old d : Nat) :
    ((old &&& 0xfc000003) ||| (d &&& 0x3fffffc)) &&& 0x3fffffc = d &&& 0x3fffffc := by
  apply Nat.eq_of_testBit_eq
  intro i
  simp only [Nat.testBit_and, Nat.testBit_or, testBit_field_mask, testBit_reserved_mask]
  by_cases h1 : i < 2 <;> by_cases h2 : 26 ≤ i <;> by_cases h3 : i < 32 <;>
    by_cases h4 : 2 ≤ i <;> by_cases h5 : i < 26 <;> simp [h1, h2, h3, h4, h5] <;> omega

theorem merge_lt (old d : Nat) :
    (old &&& 0xfc000003) ||| (d &&& 0x3fffffc) < 4294967296 := by
  have h1 : old &&& 0xfc000003 < 2 ^ 32 := Nat.and_lt_two_pow _ (by norm_num)
  have h2 : d &&& 0x3fffffc < 2 ^ 32 := Nat.and_lt_two_pow _ (by norm_num)
  have := Nat.or_lt_two_pow h1 h2
  simpa using this

theorem and_field_mask (d : Nat) : d &&& 0x3fffffc = d % 67108864 - d % 4 := by
  have h : d &&& 0x3fffffc = 2 ^ 2 * (d / 2 ^ 2 % 2 ^ 24) := by
    apply Nat.eq_of_testBit_eq
    intro i
    rw [Nat.testBit_and, testBit_field_mask, Nat.testBit_mul_pow_two, Nat.testBit_mod_two_pow,
      ← Nat.shiftRight_eq_div_pow, Nat.testBit_shiftRight]
    by_cases h4 : 2 ≤ i
    · have e : 2 + (i - 2) = i := by omega
      by_cases h5 : i < 26
      · have h6 : i - 2 < 24 := by omega
        simp [h4, h5, h6, e]
      · have h6 : ¬ i - 2 < 24 := by omega
        simp [h4, h5, h6]
    · simp [h4]
  rw [h]
  omega

/-! ### One relocation entry -/

theorem relocate_entry_rel24 (e : Buffer) (seg : grub_dl_segment) (symtab entsize rel : Nat)
    (m : Mem) (hb : r_offset e rel ≤ seg.size)
    (ht : ELF32_R_TYPE (r_info e rel) = R_PPC_REL24) :
    relocate_entry e seg symtab entsize rel m =
      if sar_s32 (shl_s32 (reloc_delta e seg symtab entsize rel) 6) 6
          ≠ reloc_delta e seg symtab entsize rel then
        (GRUB_ERR_BAD_MODULE "Relocation overflow", m)
      else
        (GRUB_ERR_NONE,
          store32 m (reloc_addr e seg rel)
            ((load32 m (reloc_addr e seg rel) &&& 0xfc000003)
              ||| (to_u32 (reloc_delta e seg symtab entsize rel) &&& 0x3fffffc))) := by
  unfold relocate_entry
  rw [if_neg (Nat.not_lt.mpr hb)]
  simp only [ht]
  rw [if_neg (by decide)]
  rw [if_pos trivial]

theorem relocate_entry_out_of_range (e : Buffer) (seg : grub_dl_segment)
    (symtab entsize rel : Nat) (m : Mem) (hb : seg.size < r_offset e rel) :
    relocate_entry e seg symtab entsize rel m
      = (GRUB_ERR_BAD_MODULE "reloc offset is out of the segment", m) := by
  unfold relocate_entry
  rw [if_pos hb]

theorem relocate_entry_ok_in_range (e : Buffer) (seg : grub_dl_segment)
    (symtab entsize rel : Nat) (m : Mem)
    (hok : (relocate_entry e seg symtab entsize rel m).1 = GRUB_ERR_NONE) :
    r_offset e rel ≤ seg.size := by
  by_contra hb
  rw [relocate_entry_out_of_range e seg symtab entsize rel m (by omega)] at hok
  simp at hok

theorem relocate_entry_lo (e : Buffer) (seg : grub_dl_segment) (symtab entsize rel : Nat)
    (m : Mem) (hb : r_offset e rel ≤ seg.size)
    (ht : ELF32_R_TYPE (r_info e rel) = R_PPC_ADDR16_LO) :
    relocate_entry e seg symtab entsize rel m =
      (GRUB_ERR_NONE, store16 m (reloc_addr e seg rel) (reloc_value e symtab entsize rel)) := by
  unfold relocate_entry
  rw [if_neg (Nat.not_lt.mpr hb)]
  simp only [ht]
  rw [if_pos trivial]

theorem relocate_entry_ha (e : Buffer) (seg : grub_dl_segment) (symtab entsize rel : Nat)
    (m : Mem) (hb : r_offset e rel ≤ seg.size)
    (ht : ELF32_R_TYPE (r_info e rel) = R_PPC_ADDR16_HA) :
    relocate_entry e seg symtab entsize rel m =
      (GRUB_ERR_NONE, store16 m (reloc_addr e seg rel)
        (((reloc_value e symtab entsize rel + 0x8000) % 4294967296) >>> 16)) := by
  unfold relocate_entry
  rw [if_neg (Nat.not_lt.mpr hb)]
  simp only [ht]
  rw [if_neg (by decide), if_neg (by decide), if_pos trivial]

theorem relocate_entry_addr32 (e : Buffer) (seg : grub_dl_segment) (symtab entsize rel : Nat)
    (m : Mem) (hb : r_offset e rel ≤ seg.size)
    (ht : ELF32_R_TYPE (r_info e rel) = R_PPC_ADDR32) :
    relocate_entry e seg symtab entsize rel m =
      (GRUB_ERR_NONE, store32 m (reloc_addr e seg rel) (reloc_value e symtab entsize rel)) := by
  unfold relocate_entry
  rw [if_neg (Nat.not_lt.mpr hb)]
  simp only [ht]
  rw [if_neg (by decide), if_neg (by decide), if_neg (by decide), if_pos trivial]

/-! ### The loops as a run over the sequence of entries -/

theorem relocate_entry_other (e : Buffer) (seg : grub_dl_segment) (symtab entsize rel : Nat)
    (m : Mem) (hb : r_offset e rel ≤ seg.size)
    (h1 : ELF32_R_TYPE (r_info e rel) ≠ R_PPC_ADDR16_LO)
    (h2 : ELF32_R_TYPE (r_info e rel) ≠ R_PPC_REL24)
    (h3 : ELF32_R_TYPE (r_info e rel) ≠ R_PPC_ADDR16_HA)
    (h4 : ELF32_R_TYPE (r_info e rel) ≠ R_PPC_ADDR32) :
    relocate_entry e seg symtab entsize rel m = (GRUB_ERR_NONE, m) := by
  unfold relocate_entry
  rw [if_neg (Nat.not_lt.mpr hb)]
  simp only []
  rw [if_neg h1, if_neg h2, if_neg h3, if_neg h4]

/-- Every result of `relocate_entry` is one of: an error with the memory it was
given, or `GRUB_ERR_NONE`. -/
theorem relocate_entry_result (e : Buffer) (seg : grub_dl_segment)
    (symtab entsize rel : Nat) (m : Mem) :
    (∃ msg, relocate_entry e seg symtab entsize rel m = (GRUB_ERR_BAD_MODULE msg, m)
        ∧ (msg = "reloc offset is out of the segment" ∨ msg = "Relocation overflow"))
      ∨ (relocate_entry e seg symtab entsize rel m).1 = GRUB_ERR_NONE := by
  by_cases hb : seg.size < r_offset e rel
  · exact Or.inl ⟨_, relocate_entry_out_of_range e seg symtab entsize rel m hb, Or.inl rfl⟩
  · have hb' : r_offset e rel ≤ seg.size := Nat.not_lt.mp hb
    by_cases h1 : ELF32_R_TYPE (r_info e rel) = R_PPC_ADDR16_LO
    · right
      rw [relocate_entry_lo e seg symtab entsize rel m hb' h1]
    by_cases h2 : ELF32_R_TYPE (r_info e rel) = R_PPC_REL24
    · rw [relocate_entry_rel24 e seg symtab entsize rel m hb' h2]
      by_cases hd : sar_s32 (shl_s32 (reloc_delta e seg symtab entsize rel) 6) 6
          ≠ reloc_delta e seg symtab entsize rel
      · rw [if_pos hd]
        exact Or.inl ⟨_, rfl, Or.inr rfl⟩
      · rw [if_neg hd]
        exact Or.inr rfl
    by_cases h3 : ELF32_R_TYPE (r_info e rel) = R_PPC_ADDR16_HA
    · right
      rw [relocate_entry_ha e seg symtab entsize rel m hb' h3]
    by_cases h4 : ELF32_R_TYPE (r_info e rel) = R_PPC_ADDR32
    · right
      rw [relocate_entry_addr32 e seg symtab entsize rel m hb' h4]
    · right
      rw [relocate_entry_other e seg symtab entsize rel m hb' h1 h2 h3 h4]

theorem relocate_entry_defined (e : Buffer) (seg : grub_dl_segment)
    (symtab entsize rel : Nat) (m : Mem) :
    (relocate_entry e seg symtab entsize rel m).1 ≠ undefined := by
  rcases relocate_entry_result e seg symtab entsize rel m with ⟨msg, h, _⟩ | h
  · rw [h]
    simp
  · rw [h]
    simp

theorem relocate_entry_error_mem (e : Buffer) (seg : grub_dl_segment)
    (symtab entsize rel : Nat) (m : Mem)
    (herr : (relocate_entry e seg symtab entsize rel m).1 ≠ GRUB_ERR_NONE) :
    (relocate_entry e seg symtab entsize rel m).2 = m := by
  rcases relocate_entry_result e seg symtab entsize rel m with ⟨msg, h, _⟩ | h
  · rw [h]
  · exact absurd h herr

theorem relocate_entry_frame (e : Buffer) (seg : grub_dl_segment)
    (symtab entsize rel : Nat) (m : Mem) (x : Nat)
    (hx : x < reloc_addr e seg rel
      ∨ reloc_addr e seg rel + reloc_width (ELF32_R_TYPE (r_info e rel)) ≤ x) :
    (relocate_entry e seg symtab entsize rel m).2 x = m x := by
  unfold relocate_entry
  unfold reloc_width at hx
  split
  · rfl
  · simp only []
    split
    · rename_i h
      rw [if_pos h] at hx
      exact store16_other _ _ _ _ hx
    · rename_i h1
      rw [if_neg h1] at hx
      split
      · rename_i h
        rw [if_pos h] at hx
        split
        · rfl
        · exact store32_other _ _ _ _ hx
      · rename_i h2
        rw [if_neg h2] at hx
        split
        · rename_i h
          rw [if_pos h] at hx
          exact store16_other _ _ _ _ hx
        · rename_i h3
          rw [if_neg h3] at hx
          split
          · rename_i h
            rw [if_pos h] at hx
            exact store32_other _ _ _ _ hx
          · rfl

theorem entries_max_eq (e : Buffer) (s : Nat) :
    (e.base + sh_offset e s + sizeof_Elf32_Rela * (sh_size e s / sh_entsize e s))
      % 4294967296 = entries_max e s := by
  unfold entries_max
  omega

/-- The loop over the entries is a run over the offsets its test lets through,
and it leaves through its test before the fuel is used up whenever the pointer
reaches `max` after `j` steps for some `j` below the fuel. -/
theorem relocate_entries_eq_run (e : Buffer) (seg : grub_dl_segment)
    (symtab entsize max : Nat) (fuel rel j : Nat) (m : Mem)
    (hj : (e.base + rel + sizeof_Elf32_Rela * j) % 4294967296 = max) (hf : j < fuel) :
    relocate_entries e seg symtab entsize max fuel rel m
      = run_entries e symtab entsize
          ((entry_offsets e.base max fuel rel).map fun r => (seg, r)) m := by
  induction fuel generalizing rel j m with
  | zero => omega
  | succ fuel ih =>
    rw [relocate_entries, entry_offsets]
    by_cases htest : (e.base + rel) % 4294967296 < max
    · rw [if_pos htest, if_pos htest, List.map_cons, run_entries]
      simp only []
      cases j with
      | zero =>
        rw [Nat.mul_zero, Nat.add_zero] at hj
        omega
      | succ j =>
        have hj' : (e.base + (rel + sizeof_Elf32_Rela) % 4294967296 + sizeof_Elf32_Rela * j)
            % 4294967296 = max := by
          rw [← hj]
          unfold sizeof_Elf32_Rela
          omega
        rw [ih _ j _ hj' (by omega)]
    · rw [if_neg htest, if_neg htest]
      rfl

theorem run_entries_defined (e : Buffer) (symtab entsize : Nat)
    (l : List (grub_dl_segment × Nat)) (m : Mem) :
    (run_entries e symtab entsize l m).1 ≠ undefined := by
  induction l generalizing m with
  | nil => simp [run_entries]
  | cons p rest ih =>
    rw [run_entries]
    split
    · exact ih _
    · exact relocate_entry_defined _ _ _ _ _ _

theorem run_entries_append (e : Buffer) (symtab entsize : Nat)
    (l1 l2 : List (grub_dl_segment × Nat)) (m : Mem) :
    run_entries e symtab entsize (l1 ++ l2) m
      = if (run_entries e symtab entsize l1 m).1 = GRUB_ERR_NONE then
          run_entries e symtab entsize l2 (run_entries e symtab entsize l1 m).2
        else run_entries e symtab entsize l1 m := by
  induction l1 generalizing m with
  | nil => simp [run_entries]
  | cons p rest ih =>
    rw [List.cons_append, run_entries, run_entries]
    by_cases h : (relocate_entry e p.1 symtab entsize p.2 m).1 = GRUB_ERR_NONE
    · rw [if_pos h, if_pos h, ih]
    · rw [if_neg h, if_neg h, if_neg h]

theorem relocate_sections_eq_run (mod : grub_dl_t) (e : Buffer) (symtab entsize : Nat)
    (n s : Nat) (m : Mem)
    (hdef : (relocate_sections mod e symtab entsize n s m).1 ≠ undefined) :
    relocate_sections mod e symtab entsize n s m
      = run_entries e symtab entsize (entries_from mod e n s) m := by
  induction n generalizing s m with
  | zero => rfl
  | succ n ih =>
    rw [entries_from, run_entries_append]
    rw [relocate_sections] at hdef ⊢
    unfold section_entries
    by_cases hrela : sh_type e s = SHT_RELA
    · rw [if_pos hrela] at hdef ⊢
      rw [if_pos hrela]
      cases hseg : find_segment mod (sh_info e s) with
      | none =>
        rw [hseg] at hdef
        simp only [] at hdef ⊢
        simp only [run_entries]
        rw [if_pos trivial]
        exact ih _ _ hdef
      | some seg =>
        rw [hseg] at hdef
        simp only [] at hdef ⊢
        by_cases hz : sh_entsize e s = 0
        · rw [if_pos hz] at hdef
          exact absurd rfl hdef
        · rw [if_neg hz] at hdef ⊢
          rw [← relocate_entries_eq_run e seg symtab entsize (entries_max e s) _ _
            (sh_size e s / sh_entsize e s) m (entries_max_eq e s) (Nat.lt_succ_self _)]
          by_cases hok : (relocate_entries e seg symtab entsize (entries_max e s)
              (sh_size e s / sh_entsize e s + 1) (sh_offset e s) m).1 = GRUB_ERR_NONE
          · rw [if_pos hok] at hdef ⊢
            rw [if_pos hok]
            exact ih _ _ hdef
          · rw [if_neg hok, if_neg hok]
    · rw [if_neg hrela] at hdef ⊢
      rw [if_neg hrela]
      simp only [run_entries]
      rw [if_pos trivial]
      exact ih _ _ hdef

theorem relocate_symbols_eq_run (mod : grub_dl_t) (e : Buffer) (m : Mem) (s : Nat)
    (hs : find_symtab e (e_shnum e) (e_shoff e) = some s)
    (hdef : (grub_arch_dl_relocate_symbols mod e m).1 ≠ undefined) :
    grub_arch_dl_relocate_symbols mod e m
      = run_entries e (sh_offset e s) (sh_entsize e s) (all_entries mod e) m := by
  unfold grub_arch_dl_relocate_symbols at hdef ⊢
  rw [hs] at hdef ⊢
  exact relocate_sections_eq_run mod e _ _ _ _ m hdef

/-! ### Frame and prefix properties of a run -/

theorem store32_indep (m m2 : Mem) (a v x : Nat) (h1 : a ≤ x) (h2 : x < a + 4) :
    store32 m a v x = store32 m2 a v x := by
  have hx : x = a ∨ x = a + 1 ∨ x = a + 2 ∨ x = a + 3 := by omega
  unfold store32 store8
  rcases hx with h | h | h | h <;> subst h <;> simp

theorem run_entries_head_ok (e : Buffer) (symtab entsize : Nat)
    (p : grub_dl_segment × Nat) (rest : List (grub_dl_segment × Nat)) (m : Mem)
    (hok : (run_entries e symtab entsize (p :: rest) m).1 = GRUB_ERR_NONE) :
    (relocate_entry e p.1 symtab entsize p.2 m).1 = GRUB_ERR_NONE
      ∧ run_entries e symtab entsize (p :: rest) m
        = run_entries e symtab entsize rest (relocate_entry e p.1 symtab entsize p.2 m).2 := by
  rw [run_entries] at hok ⊢
  by_cases h : (relocate_entry e p.1 symtab entsize p.2 m).1 = GRUB_ERR_NONE
  · rw [if_pos h]
    exact ⟨h, rfl⟩
  · rw [if_neg h] at hok
    exact absurd hok h

theorem apply_entries_cons (e : Buffer) (symtab entsize : Nat)
    (p : grub_dl_segment × Nat) (rest : List (grub_dl_segment × Nat)) (m : Mem) :
    apply_entries e symtab entsize (p :: rest) m
      = apply_entries e symtab entsize rest (relocate_entry e p.1 symtab entsize p.2 m).2 := by
  simp [apply_entries]

theorem run_entries_error (e : Buffer) (symtab entsize : Nat)
    (l : List (grub_dl_segment × Nat)) (m : Mem) (msg : String)
    (herr : (run_entries e symtab entsize l m).1 = GRUB_ERR_BAD_MODULE msg) :
    ∃ k seg rel, l[k]? = some (seg, rel)
      ∧ relocate_entry e seg symtab entsize rel (run_entries e symtab entsize l m).2
        = (GRUB_ERR_BAD_MODULE msg, (run_entries e symtab entsize l m).2)
      ∧ run_entries e symtab entsize (l.take k) m
        = (GRUB_ERR_NONE, (run_entries e symtab entsize l m).2)
      ∧ apply_entries e symtab entsize (l.take k) m = (run_entries e symtab entsize l m).2 := by
  induction l generalizing m with
  | nil => simp [run_entries] at herr
  | cons p rest ih =>
    rw [run_entries] at herr ⊢
    by_cases h : (relocate_entry e p.1 symtab entsize p.2 m).1 = GRUB_ERR_NONE
    · rw [if_pos h] at herr ⊢
      obtain ⟨k, seg, rel, hk, hfail, hrun, happ⟩ := ih _ herr
      refine ⟨k + 1, seg, rel, ?_, hfail, ?_, ?_⟩
      · simpa using hk
      · rw [List.take_succ_cons, run_entries, if_pos h]
        exact hrun
      · rw [List.take_succ_cons, apply_entries_cons]
        exact happ
    · rw [if_neg h] at herr ⊢
      have hmem := relocate_entry_error_mem e p.1 symtab entsize p.2 m h
      refine ⟨0, p.1, p.2, by simp, ?_, ?_, ?_⟩
      · rw [hmem]
        exact Prod.ext herr hmem
      · rw [hmem]
        rfl
      · rw [hmem]
        rfl

theorem run_entries_stop (e : Buffer) (symtab entsize : Nat)
    (l : List (grub_dl_segment × Nat)) (k : Nat) (m mk : Mem)
    (seg : grub_dl_segment) (rel : Nat)
    (hk : l[k]? = some (seg, rel))
    (hreach : run_entries e symtab entsize (l.take k) m = (GRUB_ERR_NONE, mk))
    (hfail : (relocate_entry e seg symtab entsize rel mk).1 ≠ GRUB_ERR_NONE) :
    run_entries e symtab entsize l m = relocate_entry e seg symtab entsize rel mk := by
  induction l generalizing k m with
  | nil => simp at hk
  | cons p rest ih =>
    cases k with
    | zero =>
      simp only [List.getElem?_cons_zero, Option.some.injEq] at hk
      subst hk
      simp only [List.take_zero, run_entries, Prod.mk.injEq, true_and] at hreach
      subst hreach
      rw [run_entries, if_neg hfail]
    | succ k =>
      simp only [List.getElem?_cons_succ] at hk
      rw [List.take_succ_cons] at hreach
      have hok : (run_entries e symtab entsize (p :: rest.take k) m).1 = GRUB_ERR_NONE := by
        rw [hreach]
      obtain ⟨hp, hrun⟩ := run_entries_head_ok e symtab entsize p (rest.take k) m hok
      rw [hrun] at hreach
      rw [run_entries, if_pos hp]
      exact ih k _ hk hreach

/-! ### The section-header loops -/

theorem find_symtab_none (e : Buffer) (n s : Nat)
    (h : ∀ i, i < n → sh_type e (s + i * e_shentsize e) ≠ SHT_SYMTAB) :
    find_symtab e n s = none := by
  induction n generalizing s with
  | zero => rfl
  | succ n ih =>
    rw [find_symtab]
    have h0 := h 0 (Nat.succ_pos n)
    rw [Nat.zero_mul, Nat.add_zero] at h0
    rw [if_neg h0]
    apply ih
    intro i hi
    have hi' := h (i + 1) (Nat.succ_lt_succ hi)
    rw [Nat.add_mul, Nat.one_mul] at hi'
    rw [show s + e_shentsize e + i * e_shentsize e = s + (i * e_shentsize e + e_shentsize e)
      by omega]
    exact hi'

theorem find_symtab_some (e : Buffer) (n s0 s : Nat) (h : find_symtab e n s0 = some s) :
    ∃ i, i < n ∧ s = s0 + i * e_shentsize e ∧ sh_type e s = SHT_SYMTAB
      ∧ ∀ j, j < i → sh_type e (s0 + j * e_shentsize e) ≠ SHT_SYMTAB := by
  induction n generalizing s0 with
  | zero => simp [find_symtab] at h
  | succ n ih =>
    rw [find_symtab] at h
    by_cases h0 : sh_type e s0 = SHT_SYMTAB
    · rw [if_pos h0] at h
      have hs : s0 = s := by simpa using h
      subst hs
      exact ⟨0, Nat.succ_pos n, by simp, h0, fun j hj => absurd hj (Nat.not_lt_zero j)⟩
    · rw [if_neg h0] at h
      obtain ⟨i, hi, hs, ht, hfirst⟩ := ih _ h
      refine ⟨i + 1, Nat.succ_lt_succ hi, ?_, ht, ?_⟩
      · rw [hs, Nat.add_mul, Nat.one_mul]
        omega
      · intro j hj
        cases j with
        | zero => simpa using h0
        | succ j =>
          have := hfirst j (by omega)
          rw [Nat.add_mul, Nat.one_mul]
          rw [show s0 + (j * e_shentsize e + e_shentsize e)
            = s0 + e_shentsize e + j * e_shentsize e by omega]
          exact this

theorem find_segment_none (mod : grub_dl_t) (info : Nat)
    (h : ∀ seg ∈ mod, seg.section_ ≠ info) : find_segment mod info = none := by
  induction mod with
  | nil => rfl
  | cons seg next ih =>
    rw [find_segment, if_neg (h seg (List.mem_cons_self _ _))]
    exact ih (fun q hq => h q (List.mem_cons_of_mem _ hq))

theorem relocate_sections_skip (mod : grub_dl_t) (e : Buffer) (symtab entsize : Nat)
    (n s : Nat) (m : Mem) (hrela : sh_type e s = SHT_RELA)
    (hseg : find_segment mod (sh_info e s) = none) :
    relocate_sections mod e symtab entsize (n + 1) s m
      = relocate_sections mod e symtab entsize n (s + e_shentsize e) m := by
  rw [relocate_sections, if_pos hrela, hseg]

theorem relocate_sections_split (mod : grub_dl_t) (e : Buffer) (symtab entsize : Nat)
    (a b s : Nat) (m : Mem) :
    relocate_sections mod e symtab entsize (a + b) s m
      = if (relocate_sections mod e symtab entsize a s m).1 = GRUB_ERR_NONE then
          relocate_sections mod e symtab entsize b (s + a * e_shentsize e)
            (relocate_sections mod e symtab entsize a s m).2
        else relocate_sections mod e symtab entsize a s m := by
  induction a generalizing s m with
  | zero => simp [relocate_sections]
  | succ a ih =>
    have hs : s + (a + 1) * e_shentsize e = s + e_shentsize e + a * e_shentsize e := by
      rw [Nat.add_mul, Nat.one_mul]
      omega
    rw [show a + 1 + b = (a + b) + 1 by omega, hs]
    rw [relocate_sections, relocate_sections]
    by_cases hrela : sh_type e s = SHT_RELA
    · rw [if_pos hrela, if_pos hrela]
      cases hseg : find_segment mod (sh_info e s) with
      | none => exact ih _ _
      | some seg =>
        simp only []
        by_cases hz : sh_entsize e s = 0
        · rw [if_pos hz, if_pos hz, if_neg (by simp)]
        · rw [if_neg hz, if_neg hz]
          by_cases hok : (relocate_entries e seg symtab entsize (entries_max e s)
              (sh_size e s / sh_entsize e s + 1) (sh_offset e s) m).1 = GRUB_ERR_NONE
          · rw [if_pos hok, if_pos hok]
            exact ih _ _
          · rw [if_neg hok, if_neg hok, if_neg hok]
    · rw [if_neg hrela, if_neg hrela]
      exact ih _ _

/-! ### Locality of one relocation entry -/

theorem store16_indep (m m2 : Mem) (a v x : Nat) (h1 : a ≤ x) (h2 : x < a + 2) :
    store16 m a v x = store16 m2 a v x := by
  have hx : x = a ∨ x = a + 1 := by omega
  unfold store16 store8
  rcases hx with h | h <;> subst h <;> simp

theorem store16_bytes (m : Mem) (a v : Nat) :
    store16 m a v a = v / 256 % 256 ∧ store16 m a v (a + 1) = v % 256 := by
  unfold store16 store8
  simp

theorem reloc_width_lo : reloc_width R_PPC_ADDR16_LO = 2 := by decide

theorem reloc_width_ha : reloc_width R_PPC_ADDR16_HA = 2 := by decide

theorem run_entries_ok (e : Buffer) (symtab entsize : Nat)
    (l : List (grub_dl_segment × Nat)) (m : Mem)
    (hok : (run_entries e symtab entsize l m).1 = GRUB_ERR_NONE) :
    (run_entries e symtab entsize l m).2 = apply_entries e symtab entsize l m := by
  induction l generalizing m with
  | nil => rfl
  | cons p rest ih =>
    obtain ⟨_, hrun⟩ := run_entries_head_ok e symtab entsize p rest m hok
    rw [hrun] at hok ⊢
    rw [apply_entries_cons]
    exact ih _ hok

theorem header_offsets_succ (e : Buffer) (n s : Nat) :
    (List.range (n + 1)).map (fun i => s + i * e_shentsize e)
      = s :: (List.range n).map (fun i => s + e_shentsize e + i * e_shentsize e) := by
  rw [List.range_succ_eq_map, List.map_cons, List.map_map]
  simp only [Nat.zero_mul, Nat.add_zero, List.cons.injEq, true_and]
  apply List.map_congr_left
  intro i _
  simp only [Function.comp, Nat.succ_eq_add_one, Nat.add_mul, Nat.one_mul]
  omega

/-! ### Reads through 32-bit pointers -/

theorem rd32_wrap (e : Buffer) (x y : Nat) (h : x % 4294967296 = y % 4294967296) :
    rd32 e x = rd32 e y := by
  have h1 : (x + 1) % 4294967296 = (y + 1) % 4294967296 := by omega
  have h2 : (x + 2) % 4294967296 = (y + 2) % 4294967296 := by omega
  have h3 : (x + 3) % 4294967296 = (y + 3) % 4294967296 := by omega
  unfold rd32 rd8
  rw [h, h1, h2, h3]

theorem st_value_reloc_sym (e : Buffer) (symtab entsize rel : Nat) :
    st_value e (reloc_sym e symtab entsize rel)
      = rd32 e (symtab + entsize * (r_info e rel >>> 8) + 4) := by
  unfold st_value reloc_sym ELF32_R_SYM
  apply rd32_wrap
  generalize entsize * (r_info e rel >>> 8) = p
  omega

/-! ### The entries and headers the loops visit -/

theorem entry_offsets_length_le (base max fuel rel j : Nat)
    (hj : (base + rel + sizeof_Elf32_Rela * j) % 4294967296 = max) :
    (entry_offsets base max fuel rel).length ≤ j := by
  induction fuel generalizing rel j with
  | zero => simp [entry_offsets]
  | succ fuel ih =>
    rw [entry_offsets]
    by_cases htest : (base + rel) % 4294967296 < max
    · rw [if_pos htest, List.length_cons]
      cases j with
      | zero =>
        rw [Nat.mul_zero, Nat.add_zero] at hj
        omega
      | succ j =>
        have hj' : (base + (rel + sizeof_Elf32_Rela) % 4294967296 + sizeof_Elf32_Rela * j)
            % 4294967296 = max := by
          rw [← hj]
          unfold sizeof_Elf32_Rela
          omega
        have := ih _ j hj'
        omega
    · rw [if_neg htest]
      simp

theorem entry_offsets_get (base max fuel rel k r : Nat) (hrel : rel < 4294967296)
    (h : (entry_offsets base max fuel rel)[k]? = some r) :
    r = (rel + sizeof_Elf32_Rela * k) % 4294967296 := by
  induction fuel generalizing rel k with
  | zero => simp [entry_offsets] at h
  | succ fuel ih =>
    rw [entry_offsets] at h
    by_cases htest : (base + rel) % 4294967296 < max
    · rw [if_pos htest] at h
      cases k with
      | zero =>
        simp only [List.getElem?_cons_zero, Option.some.injEq] at h
        omega
      | succ k =>
        simp only [List.getElem?_cons_succ] at h
        have := ih _ k (Nat.mod_lt _ (by decide)) h
        rw [this]
        unfold sizeof_Elf32_Rela
        omega
    · rw [if_neg htest] at h
      simp at h

theorem entry_offsets_length_eq (base max fuel rel n : Nat)
    (hmax : max = (base + rel) % 4294967296 + sizeof_Elf32_Rela * n)
    (hno : (base + rel) % 4294967296 + sizeof_Elf32_Rela * n < 4294967296)
    (hf : n < fuel) :
    (entry_offsets base max fuel rel).length = n := by
  induction n generalizing rel fuel with
  | zero =>
    cases fuel with
    | zero => omega
    | succ fuel =>
      rw [entry_offsets, if_neg (by omega)]
      rfl
  | succ n ih =>
    cases fuel with
    | zero => omega
    | succ fuel =>
      unfold sizeof_Elf32_Rela at hmax hno
      rw [entry_offsets, if_pos (by omega), List.length_cons]
      rw [ih fuel ((rel + sizeof_Elf32_Rela) % 4294967296)
        (by unfold sizeof_Elf32_Rela; omega) (by unfold sizeof_Elf32_Rela; omega) (by omega)]

theorem find_symtab_traced_fst (e : Buffer) (n s : Nat) :
    (find_symtab_traced e n s).1 = find_symtab e n s := by
  induction n generalizing s with
  | zero => rfl
  | succ n ih =>
    rw [find_symtab_traced, find_symtab]
    split
    · rfl
    · exact ih _

theorem relocate_sections_traced_fst (mod : grub_dl_t) (e : Buffer)
    (symtab entsize n s : Nat) (m : Mem) :
    (relocate_sections_traced mod e symtab entsize n s m).1
      = relocate_sections mod e symtab entsize n s m := by
  induction n generalizing s m with
  | zero => rfl
  | succ n ih =>
    rw [relocate_sections_traced, relocate_sections]
    split
    · split
      · split
        · rfl
        · split
          · exact ih _ _
          · rfl
      · exact ih _ _
    · exact ih _ _

theorem find_symtab_traced_prefix (e : Buffer) (n s : Nat) :
    (find_symtab_traced e n s).2
      <+: (List.range n).map (fun i => s + i * e_shentsize e) := by
  induction n generalizing s with
  | zero => simp [find_symtab_traced]
  | succ n ih =>
    rw [find_symtab_traced, header_offsets_succ]
    split
    · exact (List.prefix_cons_inj s).mpr List.nil_prefix
    · exact (List.prefix_cons_inj s).mpr (ih _)

theorem relocate_sections_traced_prefix (mod : grub_dl_t) (e : Buffer)
    (symtab entsize n s : Nat) (m : Mem) :
    (relocate_sections_traced mod e symtab entsize n s m).2
      <+: (List.range n).map (fun i => s + i * e_shentsize e) := by
  induction n generalizing s m with
  | zero => simp [relocate_sections_traced]
  | succ n ih =>
    rw [relocate_sections_traced, header_offsets_succ]
    split
    · split
      · split
        · exact (List.prefix_cons_inj s).mpr List.nil_prefix
        · split
          · exact (List.prefix_cons_inj s).mpr (ih _ _)
          · exact (List.prefix_cons_inj s).mpr List.nil_prefix
      · exact (List.prefix_cons_inj s).mpr (ih _ _)
    · exact (List.prefix_cons_inj s).mpr (ih _ _)

/-! ## The claims -/

/-- C1: with `size` at least `sizeof (Elf32_Ehdr)`, `grub_arch_dl_check_header`
returns 0 as soon as one of the checked fields (the four magic bytes, `EI_CLASS`,
`EI_DATA`, `EI_VERSION`, `e_type`, `e_machine`, `e_version`) differs from its
expected value, in particular when exactly one does; and it returns 1 when all of
them are as expected and `e_shoff + e_shentsize * e_shnum <= size`. -/
theorem check_header_fields (ehdr : Buffer) (size : Nat)
    (hsize : sizeof_Elf32_Ehdr ≤ size) :
    ((e_ident ehdr EI_MAG0 ≠ ELFMAG0 ∨ e_ident ehdr EI_MAG1 ≠ ELFMAG1
        ∨ e_ident ehdr EI_MAG2 ≠ ELFMAG2 ∨ e_ident ehdr EI_MAG3 ≠ ELFMAG3
        ∨ e_ident ehdr EI_CLASS ≠ ELFCLASS32 ∨ e_ident ehdr EI_DATA ≠ ELFDATA2MSB
        ∨ e_ident ehdr EI_VERSION ≠ EV_CURRENT ∨ e_type ehdr ≠ ET_REL
        ∨ e_machine ehdr ≠ EM_PPC ∨ e_version ehdr ≠ EV_CURRENT) →
      grub_arch_dl_check_header ehdr size = 0)
    ∧ ((e_ident ehdr EI_MAG0 = ELFMAG0 ∧ e_ident ehdr EI_MAG1 = ELFMAG1
        ∧ e_ident ehdr EI_MAG2 = ELFMAG2 ∧ e_ident ehdr EI_MAG3 = ELFMAG3
        ∧ e_ident ehdr EI_CLASS = ELFCLASS32 ∧ e_ident ehdr EI_DATA = ELFDATA2MSB
        ∧ e_ident ehdr EI_VERSION = EV_CURRENT ∧ e_type ehdr = ET_REL
        ∧ e_machine ehdr = EM_PPC ∧ e_version ehdr = EV_CURRENT) →
      e_shoff ehdr + e_shentsize ehdr * e_shnum ehdr ≤ size →
      grub_arch_dl_check_header ehdr size = 1) := by
  have hs : ¬ size < sizeof_Elf32_Ehdr := Nat.not_lt.mpr hsize
  constructor
  · intro hbad
    unfold grub_arch_dl_check_header
    rw [if_neg hs]
    have hcond : (!(e_ident ehdr EI_MAG0 == ELFMAG0
        && e_ident ehdr EI_MAG1 == ELFMAG1
        && e_ident ehdr EI_MAG2 == ELFMAG2
        && e_ident ehdr EI_MAG3 == ELFMAG3
        && e_ident ehdr EI_CLASS == ELFCLASS32
        && e_ident ehdr EI_DATA == ELFDATA2MSB
        && e_ident ehdr EI_VERSION == EV_CURRENT
        && e_type ehdr == ET_REL && e_machine ehdr == EM_PPC
        && e_version ehdr == EV_CURRENT)) = true := by
      simp only [Bool.not_eq_true', Bool.and_eq_false_iff, beq_eq_false_iff_ne]
      tauto
    rw [if_pos hcond]
  · rintro ⟨h0, h1, h2, h3, h4, h5, h6, h7, h8, h9⟩ hle
    unfold grub_arch_dl_check_header
    rw [if_neg hs]
    have hcond : ¬ (!(e_ident ehdr EI_MAG0 == ELFMAG0
        && e_ident ehdr EI_MAG1 == ELFMAG1
        && e_ident ehdr EI_MAG2 == ELFMAG2
        && e_ident ehdr EI_MAG3 == ELFMAG3
        && e_ident ehdr EI_CLASS == ELFCLASS32
        && e_ident ehdr EI_DATA == ELFDATA2MSB
        && e_ident ehdr EI_VERSION == EV_CURRENT
        && e_type ehdr == ET_REL && e_machine ehdr == EM_PPC
        && e_version ehdr == EV_CURRENT)) = true := by
      simp [h0, h1, h2, h3, h4, h5, h6, h7, h8, h9]
    rw [if_neg hcond]
    have hmod : (e_shoff ehdr + e_shentsize ehdr * e_shnum ehdr) % 4294967296
        ≤ e_shoff ehdr + e_shentsize ehdr * e_shnum ehdr := Nat.mod_le _ _
    rw [if_neg (by omega)]

/-- Witness of C1: a header that is correct except for its machine field is
refused, and the correct header with an in-bounds (empty) section table is
accepted. -/
theorem check_header_fields_witness :
    grub_arch_dl_check_header wrong_machine_header 52 = 0
      ∧ grub_arch_dl_check_header good_header 52 = 1 :=
  ⟨(check_header_fields wrong_machine_header 52 (by decide)).1 (by decide),
   (check_header_fields good_header 52 (by decide)).2 (by decide) (by decide)⟩

/-- C2: the bound on the section-header table is evaluated modulo `2 ^ 32`.
For `wrapping_header` all identification fields are correct and the table ends
at `e_shoff + e_shentsize * e_shnum = 2 ^ 32`, far beyond `size = 52`, yet
`grub_arch_dl_check_header` returns 1. -/
theorem check_header_bound_wraps :
    e_shoff wrapping_header + e_shentsize wrapping_header * e_shnum wrapping_header
        = 4294967296
      ∧ 52 < e_shoff wrapping_header + e_shentsize wrapping_header * e_shnum wrapping_header
      ∧ grub_arch_dl_check_header wrapping_header 52 = 1 := by
  decide

/-- C3: an entry whose `r_offset` equals the size of its target segment passes
the bounds check.  In `offset_eq_size_object` the only relocation entry (at image
offset 148) targets the 4-byte segment of `one_segment` with `r_offset = 4`, and
the call returns `GRUB_ERR_NONE` instead of the out-of-segment error. -/
theorem offset_eq_size_accepted :
    find_segment one_segment (sh_info offset_eq_size_object 92)
        = some ⟨0x1000, 4, 1⟩
      ∧ sh_type offset_eq_size_object 92 = SHT_RELA
      ∧ sh_offset offset_eq_size_object 92 = 148
      ∧ r_offset offset_eq_size_object 148 = 4
      ∧ (grub_arch_dl_relocate_symbols one_segment offset_eq_size_object zero_mem).1
        = GRUB_ERR_NONE := by
  decide

/-- C4: a patch can fall outside the target segment.  For `offset_eq_size_object`
the segment is `[0x1000, 0x1004)`, and after the call the four bytes at
`0x1004 .. 0x1007`, all outside the segment and zero before, hold the relocated
word `0x11223344`, while the segment itself is untouched. -/
theorem write_outside_segment :
    (grub_arch_dl_relocate_symbols one_segment offset_eq_size_object zero_mem).1
        = GRUB_ERR_NONE
      ∧ zero_mem 0x1004 = 0 ∧ zero_mem 0x1005 = 0 ∧ zero_mem 0x1006 = 0
      ∧ zero_mem 0x1007 = 0
      ∧ (grub_arch_dl_relocate_symbols one_segment offset_eq_size_object zero_mem).2 0x1004
        = 0x11
      ∧ (grub_arch_dl_relocate_symbols one_segment offset_eq_size_object zero_mem).2 0x1005
        = 0x22
      ∧ (grub_arch_dl_relocate_symbols one_segment offset_eq_size_object zero_mem).2 0x1006
        = 0x33
      ∧ (grub_arch_dl_relocate_symbols one_segment offset_eq_size_object zero_mem).2 0x1007
        = 0x44
      ∧ load32 (grub_arch_dl_relocate_symbols one_segment offset_eq_size_object zero_mem).2
        0x1000 = 0 := by
  decide

/-- C6: let the `k`-th entry visited by a call that meets no
division by zero be an `R_PPC_REL24` entry passing the bounds check, reached with
memory `mk` after the entries before it were applied.  The test
`delta << 6 >> 6 != delta` fails exactly when `delta` is outside
`[-2 ^ 25, 2 ^ 25)`; outside that range the call returns the `Relocation overflow`
error with memory `mk`, the entry leaving memory (hence the instruction word at
the target and its bits under `0xfc000003`) unchanged; inside the range the
entry does not produce an error. -/
theorem rel24_overflow (mod : grub_dl_t) (e : Buffer) (m mk : Mem) (s k : Nat)
    (seg : grub_dl_segment) (rel : Nat)
    (hs : find_symtab e (e_shnum e) (e_shoff e) = some s)
    (hdef : (grub_arch_dl_relocate_symbols mod e m).1 ≠ undefined)
    (hk : (all_entries mod e)[k]? = some (seg, rel))
    (hreach : run_entries e (sh_offset e s) (sh_entsize e s) ((all_entries mod e).take k) m
      = (GRUB_ERR_NONE, mk))
    (hb : r_offset e rel ≤ seg.size)
    (ht : ELF32_R_TYPE (r_info e rel) = R_PPC_REL24) :
    (sar_s32 (shl_s32 (reloc_delta e seg (sh_offset e s) (sh_entsize e s) rel) 6) 6
        ≠ reloc_delta e seg (sh_offset e s) (sh_entsize e s) rel
      ↔ (reloc_delta e seg (sh_offset e s) (sh_entsize e s) rel < -33554432
          ∨ 33554432 ≤ reloc_delta e seg (sh_offset e s) (sh_entsize e s) rel))
    ∧ ((reloc_delta e seg (sh_offset e s) (sh_entsize e s) rel < -33554432
          ∨ 33554432 ≤ reloc_delta e seg (sh_offset e s) (sh_entsize e s) rel) →
        grub_arch_dl_relocate_symbols mod e m
            = (GRUB_ERR_BAD_MODULE "Relocation overflow", mk)
          ∧ relocate_entry e seg (sh_offset e s) (sh_entsize e s) rel mk
            = (GRUB_ERR_BAD_MODULE "Relocation overflow", mk)
          ∧ load32 (grub_arch_dl_relocate_symbols mod e m).2 (seg.addr + r_offset e rel)
            = load32 mk (seg.addr + r_offset e rel))
    ∧ ((-33554432 ≤ reloc_delta e seg (sh_offset e s) (sh_entsize e s) rel
          ∧ reloc_delta e seg (sh_offset e s) (sh_entsize e s) rel < 33554432) →
        (relocate_entry e seg (sh_offset e s) (sh_entsize e s) rel mk).1 = GRUB_ERR_NONE) := by
  have hr := reloc_delta_range e seg (sh_offset e s) (sh_entsize e s) rel
  have hiff := shift_check_iff (reloc_delta e seg (sh_offset e s) (sh_entsize e s) rel)
    hr.1 hr.2
  have hent := relocate_entry_rel24 e seg (sh_offset e s) (sh_entsize e s) rel mk hb ht
  refine ⟨?_, ?_, ?_⟩
  · rw [Ne, hiff]
    omega
  · intro hout
    have hne : sar_s32 (shl_s32 (reloc_delta e seg (sh_offset e s) (sh_entsize e s) rel) 6) 6
        ≠ reloc_delta e seg (sh_offset e s) (sh_entsize e s) rel := by
      rw [Ne, hiff]
      omega
    rw [if_pos hne] at hent
    have hcall : grub_arch_dl_relocate_symbols mod e m
        = (GRUB_ERR_BAD_MODULE "Relocation overflow", mk) := by
      rw [relocate_symbols_eq_run mod e m s hs hdef,
        run_entries_stop e _ _ (all_entries mod e) k m mk seg rel hk hreach
          (by rw [hent]; simp), hent]
    refine ⟨hcall, hent, ?_⟩
    rw [hcall]
  · intro hin
    have heq : ¬ sar_s32 (shl_s32 (reloc_delta e seg (sh_offset e s) (sh_entsize e s) rel) 6) 6
        ≠ reloc_delta e seg (sh_offset e s) (sh_entsize e s) rel := by
      rw [Ne, hiff]
      exact not_not.mpr hin
    rw [if_neg heq] at hent
    rw [hent]

/-- Witness of C6: in `overflow_delta_object` the only entry has `delta = 2 ^ 25`,
one past the largest value of the range; the call returns the overflow error and
the instruction word `0x48000001` at the target stays in place. -/
theorem rel24_overflow_witness :
    reloc_delta overflow_delta_object ⟨0x1000, 4, 1⟩ 132 16 148 = 33554432
      ∧ load32 branch_mem 0x1000 = 0x48000001
      ∧ grub_arch_dl_relocate_symbols one_segment overflow_delta_object branch_mem
        = (GRUB_ERR_BAD_MODULE "Relocation overflow", branch_mem) :=
  ⟨by decide, by decide,
   ((rel24_overflow one_segment overflow_delta_object branch_mem branch_mem 52 0
      ⟨0x1000, 4, 1⟩ 148 (by decide) (by decide) (by decide) rfl (by decide)
      (by decide)).2.1 (by decide)).1⟩

/-- C7 (as stated, refuted): in `max_delta_object` the displacement is
`2 ^ 25 - 1`, the largest value the overflow check accepts; the call succeeds,
but the stored field sign-extends to `2 ^ 25 - 4`, not to `delta`. -/
theorem rel24_round_trip_fails_unaligned :
    reloc_delta max_delta_object ⟨0x1000, 4, 1⟩ 132 16 148 = 33554431
      ∧ sar_s32 (shl_s32 (reloc_delta max_delta_object ⟨0x1000, 4, 1⟩ 132 16 148) 6) 6
        = reloc_delta max_delta_object ⟨0x1000, 4, 1⟩ 132 16 148
      ∧ (grub_arch_dl_relocate_symbols one_segment max_delta_object branch_mem).1
        = GRUB_ERR_NONE
      ∧ sign_extend_26
          (load32 (grub_arch_dl_relocate_symbols one_segment max_delta_object branch_mem).2
            0x1000 &&& 0x3fffffc) = 33554428
      ∧ sign_extend_26
          (load32 (grub_arch_dl_relocate_symbols one_segment max_delta_object branch_mem).2
            0x1000 &&& 0x3fffffc)
        ≠ reloc_delta max_delta_object ⟨0x1000, 4, 1⟩ 132 16 148 := by
  decide

/-- C7 (amended): for an `R_PPC_REL24` entry that passes the bounds check and
whose `delta` the overflow check accepts, the entry is applied without error and
sign-extending `new_word & 0x03fffffc` from bit 25 yields `delta` with its two
low bits cleared; so the field round-trips to `delta` exactly when `delta` is a
multiple of 4. -/
theorem rel24_round_trip (e : Buffer) (seg : grub_dl_segment) (symtab entsize rel : Nat)
    (m : Mem) (hb : r_offset e rel ≤ seg.size)
    (ht : ELF32_R_TYPE (r_info e rel) = R_PPC_REL24)
    (hacc : sar_s32 (shl_s32 (reloc_delta e seg symtab entsize rel) 6) 6
      = reloc_delta e seg symtab entsize rel) :
    (relocate_entry e seg symtab entsize rel m).1 = GRUB_ERR_NONE
      ∧ sign_extend_26
          (load32 (relocate_entry e seg symtab entsize rel m).2 (reloc_addr e seg rel)
            &&& 0x3fffffc)
        = reloc_delta e seg symtab entsize rel - reloc_delta e seg symtab entsize rel % 4
      ∧ (reloc_delta e seg symtab entsize rel % 4 = 0 →
          sign_extend_26
            (load32 (relocate_entry e seg symtab entsize rel m).2 (reloc_addr e seg rel)
              &&& 0x3fffffc)
          = reloc_delta e seg symtab entsize rel) := by
  have hr := reloc_delta_range e seg symtab entsize rel
  have hin := (shift_check_iff (reloc_delta e seg symtab entsize rel) hr.1 hr.2).mp hacc
  have hent := relocate_entry_rel24 e seg symtab entsize rel m hb ht
  rw [if_neg (not_not.mpr hacc)] at hent
  have hfield : sign_extend_26
      (load32 (relocate_entry e seg symtab entsize rel m).2 (reloc_addr e seg rel)
        &&& 0x3fffffc)
      = reloc_delta e seg symtab entsize rel - reloc_delta e seg symtab entsize rel % 4 := by
    rw [hent]
    simp only []
    rw [load32_store32, Nat.mod_eq_of_lt (merge_lt _ _), merge_field, and_field_mask]
    generalize reloc_delta e seg symtab entsize rel = d at hin
    unfold sign_extend_26 to_u32
    split <;> omega
  refine ⟨by rw [hent], hfield, ?_⟩
  intro h4
  rw [hfield, h4]
  omega

/-- Witness of C7 (amended): in `aligned_delta_object` the displacement is
`2 ^ 25 - 4`, the largest accepted multiple of 4, and the stored field
sign-extends back to it. -/
theorem rel24_round_trip_witness :
    reloc_delta aligned_delta_object ⟨0x1000, 4, 1⟩ 132 16 148 = 33554428
      ∧ sign_extend_26
          (load32 (relocate_entry aligned_delta_object ⟨0x1000, 4, 1⟩ 132 16 148 branch_mem).2
            (reloc_addr aligned_delta_object ⟨0x1000, 4, 1⟩ 148) &&& 0x3fffffc)
        = reloc_delta aligned_delta_object ⟨0x1000, 4, 1⟩ 132 16 148 :=
  ⟨by decide,
   (rel24_round_trip aligned_delta_object ⟨0x1000, 4, 1⟩ 132 16 148 branch_mem
      (by decide) (by decide) (by decide)).2.2 (by decide)⟩

/-- C8: for an `R_PPC_REL24` entry that is applied successfully, with `old` and
`new` the instruction word at the target before and after the patch,
`new & 0xfc000003 = old & 0xfc000003` and `new & 0x03fffffc = delta & 0x03fffffc`
(`delta` taken as its 32-bit pattern). -/
theorem rel24_preserves_reserved (e : Buffer) (seg : grub_dl_segment)
    (symtab entsize rel : Nat) (m : Mem)
    (ht : ELF32_R_TYPE (r_info e rel) = R_PPC_REL24)
    (hok : (relocate_entry e seg symtab entsize rel m).1 = GRUB_ERR_NONE) :
    load32 (relocate_entry e seg symtab entsize rel m).2 (reloc_addr e seg rel) &&& 0xfc000003
        = load32 m (reloc_addr e seg rel) &&& 0xfc000003
      ∧ load32 (relocate_entry e seg symtab entsize rel m).2 (reloc_addr e seg rel)
          &&& 0x3fffffc
        = to_u32 (reloc_delta e seg symtab entsize rel) &&& 0x3fffffc := by
  have hb := relocate_entry_ok_in_range e seg symtab entsize rel m hok
  have hent := relocate_entry_rel24 e seg symtab entsize rel m hb ht
  by_cases hne : sar_s32 (shl_s32 (reloc_delta e seg symtab entsize rel) 6) 6
      ≠ reloc_delta e seg symtab entsize rel
  · rw [if_pos hne] at hent
    rw [hent] at hok
    simp at hok
  · rw [if_neg hne] at hent
    rw [hent]
    simp only []
    rw [load32_store32, Nat.mod_eq_of_lt (merge_lt _ _)]
    exact ⟨merge_reserved _ _, merge_field _ _⟩

/-- Witness of C8: patching the `bl` instruction `0x48000001` with
`delta = 2 ^ 25 - 4` keeps the opcode and the low two bits. -/
theorem rel24_preserves_reserved_witness :
    load32 branch_mem 0x1000 = 0x48000001
      ∧ load32 (relocate_entry aligned_delta_object ⟨0x1000, 4, 1⟩ 132 16 148 branch_mem).2
          0x1000 = 0x49fffffd
      ∧ load32 (relocate_entry aligned_delta_object ⟨0x1000, 4, 1⟩ 132 16 148 branch_mem).2
          (reloc_addr aligned_delta_object ⟨0x1000, 4, 1⟩ 148) &&& 0xfc000003
        = load32 branch_mem (reloc_addr aligned_delta_object ⟨0x1000, 4, 1⟩ 148)
          &&& 0xfc000003 :=
  ⟨by decide, by decide,
   (rel24_preserves_reserved aligned_delta_object ⟨0x1000, 4, 1⟩ 132 16 148 branch_mem
      (by decide) (by decide)).1⟩

/-- C9: let an `R_PPC_ADDR16_HA` entry and an `R_PPC_ADDR16_LO` entry carry the
same value `v = st_value + r_addend`, and let `ha` and `lo` be the 16-bit fields
they leave at their targets.  Then `ha = ((v + 0x8000) mod 2 ^ 32) >> 16`,
`lo = v mod 2 ^ 16`, and `(ha << 16) + signextend16 (lo) = v` modulo `2 ^ 32`. -/
theorem ha_lo_reconstruct (e : Buffer) (seg_ha seg_lo : grub_dl_segment)
    (symtab entsize rel_ha rel_lo : Nat) (m_ha m_lo : Mem)
    (hb_ha : r_offset e rel_ha ≤ seg_ha.size) (hb_lo : r_offset e rel_lo ≤ seg_lo.size)
    (ht_ha : ELF32_R_TYPE (r_info e rel_ha) = R_PPC_ADDR16_HA)
    (ht_lo : ELF32_R_TYPE (r_info e rel_lo) = R_PPC_ADDR16_LO)
    (hv : reloc_value e symtab entsize rel_ha = reloc_value e symtab entsize rel_lo) :
    load16 (relocate_entry e seg_ha symtab entsize rel_ha m_ha).2 (reloc_addr e seg_ha rel_ha)
        = ((reloc_value e symtab entsize rel_lo + 0x8000) % 4294967296) >>> 16
      ∧ load16 (relocate_entry e seg_lo symtab entsize rel_lo m_lo).2
          (reloc_addr e seg_lo rel_lo)
        = reloc_value e symtab entsize rel_lo % 65536
      ∧ to_u32
          (((load16 (relocate_entry e seg_ha symtab entsize rel_ha m_ha).2
                (reloc_addr e seg_ha rel_ha) <<< 16 : Nat) : Int)
            + sign_extend_16
                (load16 (relocate_entry e seg_lo symtab entsize rel_lo m_lo).2
                  (reloc_addr e seg_lo rel_lo)))
        = reloc_value e symtab entsize rel_lo := by
  have hlt := reloc_value_lt e symtab entsize rel_lo
  rw [relocate_entry_ha e seg_ha symtab entsize rel_ha m_ha hb_ha ht_ha,
    relocate_entry_lo e seg_lo symtab entsize rel_lo m_lo hb_lo ht_lo, hv]
  simp only []
  rw [load16_store16, load16_store16]
  generalize reloc_value e symtab entsize rel_lo = v at hlt
  have hha : ((v + 0x8000) % 4294967296) >>> 16 % 65536 = ((v + 0x8000) % 4294967296) >>> 16 := by
    rw [Nat.shiftRight_eq_div_pow]
    omega
  rw [hha]
  refine ⟨rfl, rfl, ?_⟩
  rw [Nat.shiftLeft_eq, Nat.shiftRight_eq_div_pow]
  unfold to_u32 sign_extend_16
  split <;> omega

/-- Witness of C9: in `ha_lo_object` the value `0x12348765` is split into
`ha = 0x1235` and `lo = 0x8765`, and `(0x1235 << 16) + signextend16 (0x8765)`
gives the value back. -/
theorem ha_lo_reconstruct_witness :
    reloc_value ha_lo_object 132 16 160 = 0x12348765
      ∧ load16 (relocate_entry ha_lo_object ⟨0x1000, 4, 1⟩ 132 16 148 zero_mem).2
          (reloc_addr ha_lo_object ⟨0x1000, 4, 1⟩ 148) = 0x1235
      ∧ load16 (relocate_entry ha_lo_object ⟨0x1000, 4, 1⟩ 132 16 160 zero_mem).2
          (reloc_addr ha_lo_object ⟨0x1000, 4, 1⟩ 160) = 0x8765
      ∧ to_u32
          (((load16 (relocate_entry ha_lo_object ⟨0x1000, 4, 1⟩ 132 16 148 zero_mem).2
                (reloc_addr ha_lo_object ⟨0x1000, 4, 1⟩ 148) <<< 16 : Nat) : Int)
            + sign_extend_16
                (load16 (relocate_entry ha_lo_object ⟨0x1000, 4, 1⟩ 132 16 160 zero_mem).2
                  (reloc_addr ha_lo_object ⟨0x1000, 4, 1⟩ 160)))
        = reloc_value ha_lo_object 132 16 160 :=
  ⟨by decide, by decide, by decide,
   (ha_lo_reconstruct ha_lo_object ⟨0x1000, 4, 1⟩ ⟨0x1000, 4, 1⟩ 132 16 148 160
      zero_mem zero_mem (by decide) (by decide) (by decide) (by decide) (by decide)).2.2⟩

/-- C11: when no entry `i < e_shnum` of the section-header table (at
`e_shoff + i * e_shentsize`) has type `SHT_SYMTAB`, in particular when
`e_shnum = 0`, the call returns the `no symtab found` error and memory is
unchanged, whatever `SHT_RELA` sections the table holds. -/
theorem missing_symtab (mod : grub_dl_t) (e : Buffer) (m : Mem)
    (h : ∀ i, i < e_shnum e → sh_type e (e_shoff e + i * e_shentsize e) ≠ SHT_SYMTAB) :
    grub_arch_dl_relocate_symbols mod e m = (GRUB_ERR_BAD_MODULE "no symtab found", m) := by
  unfold grub_arch_dl_relocate_symbols
  rw [find_symtab_none e (e_shnum e) (e_shoff e) h]

/-- Witness of C11: `no_symtab_object` has one section header, an `SHT_RELA`
section for the loaded section 1, and no symbol table; the call fails and the
memory is the one it was given. -/
theorem missing_symtab_witness :
    e_shnum no_symtab_object = 1
      ∧ sh_type no_symtab_object 52 = SHT_RELA
      ∧ find_segment one_segment (sh_info no_symtab_object 52) = some ⟨0x1000, 4, 1⟩
      ∧ grub_arch_dl_relocate_symbols one_segment no_symtab_object zero_mem
        = (GRUB_ERR_BAD_MODULE "no symtab found", zero_mem) :=
  ⟨by decide, by decide, by decide,
   missing_symtab one_segment no_symtab_object zero_mem (by decide)⟩

/-- C12: let header `i < e_shnum` be an `SHT_RELA` section whose `sh_info` is the
section index of no segment of the module.  Then the loop visits none of its
entries, and when it reaches this header, with any memory and any number of
headers left, it goes on to the next header with memory unchanged and no error.
The whole call is the loop over the `i` headers before it followed, if that
returned no error, by the loop over the headers after it: the other sections
are processed as if the skipped header were not there. -/
theorem unloaded_target_skipped (mod : grub_dl_t) (e : Buffer) (m : Mem) (s i : Nat)
    (hs : find_symtab e (e_shnum e) (e_shoff e) = some s)
    (hi : i < e_shnum e)
    (hrela : sh_type e (e_shoff e + i * e_shentsize e) = SHT_RELA)
    (hno : ∀ seg ∈ mod, seg.section_ ≠ sh_info e (e_shoff e + i * e_shentsize e)) :
    section_entries mod e (e_shoff e + i * e_shentsize e) = []
      ∧ (∀ (symtab entsize n : Nat) (mm : Mem),
          relocate_sections mod e symtab entsize (n + 1) (e_shoff e + i * e_shentsize e) mm
            = relocate_sections mod e symtab entsize n
                (e_shoff e + i * e_shentsize e + e_shentsize e) mm)
      ∧ grub_arch_dl_relocate_symbols mod e m
        = if (relocate_sections mod e (sh_offset e s) (sh_entsize e s) i (e_shoff e) m).1
              = GRUB_ERR_NONE then
            relocate_sections mod e (sh_offset e s) (sh_entsize e s) (e_shnum e - (i + 1))
              (e_shoff e + (i + 1) * e_shentsize e)
              (relocate_sections mod e (sh_offset e s) (sh_entsize e s) i (e_shoff e) m).2
          else relocate_sections mod e (sh_offset e s) (sh_entsize e s) i (e_shoff e) m := by
  have hseg := find_segment_none mod _ hno
  refine ⟨?_, ?_, ?_⟩
  · unfold section_entries
    rw [if_pos hrela, hseg]
  · intro symtab entsize n mm
    exact relocate_sections_skip mod e symtab entsize n _ mm hrela hseg
  · unfold grub_arch_dl_relocate_symbols
    rw [hs]
    simp only []
    have hn : e_shnum e = i + ((e_shnum e - (i + 1)) + 1) := by omega
    have hoff : e_shoff e + (i + 1) * e_shentsize e
        = e_shoff e + i * e_shentsize e + e_shentsize e := by
      rw [Nat.add_mul, Nat.one_mul]
      omega
    rw [hoff]
    conv_lhs => rw [hn]
    rw [relocate_sections_split]
    by_cases hok : (relocate_sections mod e (sh_offset e s) (sh_entsize e s) i
        (e_shoff e) m).1 = GRUB_ERR_NONE
    · rw [if_pos hok, if_pos hok]
      exact relocate_sections_skip mod e _ _ _ _ _ hrela hseg
    · rw [if_neg hok, if_neg hok]

/-- Witness of C12: in `skipped_section_object` the second header is an `SHT_RELA`
section for the unloaded section 7 whose entry has `r_offset = 0xffffffff`; the
call returns `GRUB_ERR_NONE` and the entry of the third header is applied. -/
theorem unloaded_target_skipped_witness :
    r_offset skipped_section_object 188 = 0xffffffff
      ∧ (grub_arch_dl_relocate_symbols one_segment skipped_section_object zero_mem).1
        = GRUB_ERR_NONE
      ∧ load32 (grub_arch_dl_relocate_symbols one_segment skipped_section_object zero_mem).2
          0x1000 = 0x11223344
      ∧ section_entries one_segment skipped_section_object
          (e_shoff skipped_section_object + 1 * e_shentsize skipped_section_object) = [] :=
  ⟨by decide, by decide, by decide,
   (unloaded_target_skipped one_segment skipped_section_object zero_mem 52 1
      (by decide) (by decide) (by decide) (by decide)).1⟩

/-- C13: for every `size` below `sizeof (Elf32_Ehdr)` the function returns 0
whatever the buffer holds: any two buffers give the same result, so no header
field takes part in it. -/
theorem short_buffer_rejected (ehdr ehdr' : Buffer) (size : Nat)
    (hsize : size < sizeof_Elf32_Ehdr) :
    grub_arch_dl_check_header ehdr size = 0
      ∧ grub_arch_dl_check_header ehdr size = grub_arch_dl_check_header ehdr' size := by
  unfold grub_arch_dl_check_header
  rw [if_pos hsize, if_pos hsize]
  exact ⟨rfl, rfl⟩

/-- Witness of C13: the well-formed header `good_header`, accepted with
`size = 52`, is refused with `size = 51`. -/
theorem short_buffer_rejected_witness :
    grub_arch_dl_check_header good_header 52 = 1
      ∧ grub_arch_dl_check_header good_header 51 = 0 :=
  ⟨by decide, (short_buffer_rejected good_header wrong_machine_header 51 (by decide)).1⟩

/-- C14: an entry that passes the bounds check and whose type code is none of
`R_PPC_ADDR16_LO`, `R_PPC_REL24`, `R_PPC_ADDR16_HA`, `R_PPC_ADDR32` yields
`GRUB_ERR_NONE` with memory unchanged, and the loop over the entries, having
reached this entry through its test `rel < max`, goes on with the next entry. -/
theorem unknown_type_ignored (e : Buffer) (seg : grub_dl_segment)
    (symtab entsize rel max fuel : Nat) (m : Mem)
    (hb : ¬ seg.size < r_offset e rel)
    (h1 : ELF32_R_TYPE (r_info e rel) ≠ R_PPC_ADDR16_LO)
    (h2 : ELF32_R_TYPE (r_info e rel) ≠ R_PPC_REL24)
    (h3 : ELF32_R_TYPE (r_info e rel) ≠ R_PPC_ADDR16_HA)
    (h4 : ELF32_R_TYPE (r_info e rel) ≠ R_PPC_ADDR32) :
    relocate_entry e seg symtab entsize rel m = (GRUB_ERR_NONE, m)
      ∧ ((e.base + rel) % 4294967296 < max →
        relocate_entries e seg symtab entsize max (fuel + 1) rel m
          = relocate_entries e seg symtab entsize max fuel
              ((rel + sizeof_Elf32_Rela) % 4294967296) m) := by
  have hent := relocate_entry_other e seg symtab entsize rel m (Nat.not_lt.mp hb) h1 h2 h3 h4
  refine ⟨hent, ?_⟩
  intro htest
  rw [relocate_entries, if_pos htest, hent]
  rw [if_pos rfl]

/-- Witness of C14: in `unknown_type_object` the first entry has type code 99 and
leaves the word at `0x1000` zero, and the call goes on to apply the second entry,
an `R_PPC_ADDR16_LO` at offset 2. -/
theorem unknown_type_ignored_witness :
    ELF32_R_TYPE (r_info unknown_type_object 148) = 99
      ∧ relocate_entry unknown_type_object ⟨0x1000, 4, 1⟩ 132 16 148 zero_mem
        = (GRUB_ERR_NONE, zero_mem)
      ∧ (grub_arch_dl_relocate_symbols one_segment unknown_type_object zero_mem).1
        = GRUB_ERR_NONE
      ∧ load32 (grub_arch_dl_relocate_symbols one_segment unknown_type_object zero_mem).2
          0x1000 = 0x3344 :=
  ⟨by decide,
   (unknown_type_ignored unknown_type_object ⟨0x1000, 4, 1⟩ 132 16 148 0 0 zero_mem
      (by decide) (by decide) (by decide) (by decide) (by decide)).1,
   by decide, by decide⟩

/-- C15: acceptance by `grub_arch_dl_check_header` does not keep the section
headers inside the buffer.  `short_stride_object` with `size = 130` is accepted
(`e_shoff + e_shentsize * e_shnum = 52 + 39 * 2 = 130`), but header 1 starts at
offset 91 and its `sh_entsize` field occupies offsets 127 to 130.
`short_stride_object_alt` agrees with it on every offset below 130 and is
accepted too, yet the two calls of `grub_arch_dl_relocate_symbols` differ: the
result depends on the byte at offset 130, outside `[0, size)`.  The header
`wrapping_header` of C2 is a second such input: accepted with `size = 52` while
its only section header starts at offset `0xffffffd8`. -/
theorem header_check_does_not_guard_reads :
    grub_arch_dl_check_header short_stride_object 130 = 1
      ∧ grub_arch_dl_check_header short_stride_object_alt 130 = 1
      ∧ e_shoff short_stride_object + 1 * e_shentsize short_stride_object = 91
      ∧ 1 < e_shnum short_stride_object
      ∧ 130 < 91 + 40
      ∧ (∀ i, i < 130 → short_stride_object.bytes i = short_stride_object_alt.bytes i)
      ∧ sh_entsize short_stride_object 91 = 12
      ∧ sh_entsize short_stride_object_alt 91 = 13
      ∧ load32 (grub_arch_dl_relocate_symbols one_segment short_stride_object zero_mem).2
          0x1000 = 0x11223344
      ∧ load32 (grub_arch_dl_relocate_symbols one_segment short_stride_object_alt zero_mem).2
          0x1000 = 0
      ∧ grub_arch_dl_check_header wrapping_header 52 = 1
      ∧ 0 < e_shnum wrapping_header
      ∧ 52 ≤ e_shoff wrapping_header + 0 * e_shentsize wrapping_header := by
  decide

/-- C17: for an entry that passes the bounds check, of type `R_PPC_ADDR32`,
`R_PPC_ADDR16_LO` or `R_PPC_ADDR16_HA`, the stored bytes are given by
`value = (st_value + r_addend) mod 2 ^ 32` alone, so two runs from memories `m`
and `m'` store identical bytes; for `R_PPC_REL24`, two runs whose prior words at
the target agree under the mask `0xfc000003` have the same outcome and, when the
entry is applied, store identical bytes. -/
theorem explicit_addend (e : Buffer) (seg : grub_dl_segment) (symtab entsize rel : Nat)
    (m m' : Mem) (hb : r_offset e rel ≤ seg.size) :
    ((reloc_value e symtab entsize rel : Nat) : Int)
        = (((st_value e (reloc_sym e symtab entsize rel) : Nat) : Int) + r_addend e rel)
            % 4294967296
      ∧ (ELF32_R_TYPE (r_info e rel) = R_PPC_ADDR32 →
          load32 (relocate_entry e seg symtab entsize rel m).2 (reloc_addr e seg rel)
              = reloc_value e symtab entsize rel
            ∧ ∀ x, reloc_addr e seg rel ≤ x → x < reloc_addr e seg rel + 4 →
                (relocate_entry e seg symtab entsize rel m).2 x
                  = (relocate_entry e seg symtab entsize rel m').2 x)
      ∧ (ELF32_R_TYPE (r_info e rel) = R_PPC_ADDR16_LO →
          load16 (relocate_entry e seg symtab entsize rel m).2 (reloc_addr e seg rel)
              = reloc_value e symtab entsize rel % 65536
            ∧ ∀ x, reloc_addr e seg rel ≤ x → x < reloc_addr e seg rel + 2 →
                (relocate_entry e seg symtab entsize rel m).2 x
                  = (relocate_entry e seg symtab entsize rel m').2 x)
      ∧ (ELF32_R_TYPE (r_info e rel) = R_PPC_ADDR16_HA →
          load16 (relocate_entry e seg symtab entsize rel m).2 (reloc_addr e seg rel)
              = ((reloc_value e symtab entsize rel + 0x8000) % 4294967296) >>> 16
            ∧ ∀ x, reloc_addr e seg rel ≤ x → x < reloc_addr e seg rel + 2 →
                (relocate_entry e seg symtab entsize rel m).2 x
                  = (relocate_entry e seg symtab entsize rel m').2 x)
      ∧ (ELF32_R_TYPE (r_info e rel) = R_PPC_REL24 →
          load32 m (reloc_addr e seg rel) &&& 0xfc000003
            = load32 m' (reloc_addr e seg rel) &&& 0xfc000003 →
          (relocate_entry e seg symtab entsize rel m).1
              = (relocate_entry e seg symtab entsize rel m').1
            ∧ ((relocate_entry e seg symtab entsize rel m).1 = GRUB_ERR_NONE →
                ∀ x, reloc_addr e seg rel ≤ x → x < reloc_addr e seg rel + 4 →
                  (relocate_entry e seg symtab entsize rel m).2 x
                    = (relocate_entry e seg symtab entsize rel m').2 x)) := by
  have hlt := reloc_value_lt e symtab entsize rel
  refine ⟨?_, ?_, ?_, ?_, ?_⟩
  · unfold reloc_value to_u32
    omega
  · intro ht
    rw [relocate_entry_addr32 e seg symtab entsize rel m hb ht,
      relocate_entry_addr32 e seg symtab entsize rel m' hb ht]
    refine ⟨?_, fun x h1 h2 => store32_indep _ _ _ _ _ h1 h2⟩
    simp only []
    rw [load32_store32, Nat.mod_eq_of_lt hlt]
  · intro ht
    rw [relocate_entry_lo e seg symtab entsize rel m hb ht,
      relocate_entry_lo e seg symtab entsize rel m' hb ht]
    exact ⟨load16_store16 _ _ _, fun x h1 h2 => store16_indep _ _ _ _ _ h1 h2⟩
  · intro ht
    rw [relocate_entry_ha e seg symtab entsize rel m hb ht,
      relocate_entry_ha e seg symtab entsize rel m' hb ht]
    refine ⟨?_, fun x h1 h2 => store16_indep _ _ _ _ _ h1 h2⟩
    simp only []
    rw [load16_store16, Nat.shiftRight_eq_div_pow]
    omega
  · intro ht hres
    rw [relocate_entry_rel24 e seg symtab entsize rel m hb ht,
      relocate_entry_rel24 e seg symtab entsize rel m' hb ht]
    by_cases hd : sar_s32 (shl_s32 (reloc_delta e seg symtab entsize rel) 6) 6
        ≠ reloc_delta e seg symtab entsize rel
    · rw [if_pos hd, if_pos hd]
      refine ⟨rfl, ?_⟩
      intro hok
      simp at hok
    · rw [if_neg hd, if_neg hd]
      refine ⟨rfl, ?_⟩
      intro _ x h1 h2
      simp only []
      rw [hres]
      exact store32_indep _ _ _ _ _ h1 h2

/-- Witness of C17: the `R_PPC_ADDR32` entry of `addr32_object` stores
`0x11223345` at `0x1000` both over zero memory and over the memory holding
`0x48000001` there. -/
theorem explicit_addend_witness :
    load32 zero_mem 0x1000 = 0 ∧ load32 branch_mem 0x1000 = 0x48000001
      ∧ load32 (relocate_entry addr32_object ⟨0x1000, 4, 1⟩ 132 16 148 branch_mem).2 0x1000
        = 0x11223345
      ∧ load32 (relocate_entry addr32_object ⟨0x1000, 4, 1⟩ 132 16 148 zero_mem).2
          (reloc_addr addr32_object ⟨0x1000, 4, 1⟩ 148)
        = reloc_value addr32_object 132 16 148 :=
  ⟨by decide, by decide, by decide,
   ((explicit_addend addr32_object ⟨0x1000, 4, 1⟩ 132 16 148 zero_mem branch_mem
      (by decide)).2.1 (by decide)).1⟩

/-- C18: an `R_PPC_ADDR16_LO` entry that passes the bounds check stores at
`seg.addr + r_offset` the two bytes, most significant first, of
`(st_value + r_addend) mod 2 ^ 16`, and an `R_PPC_ADDR16_HA` entry those of
`((st_value + r_addend + 0x8000) mod 2 ^ 32) >> 16`; every other byte of memory,
among them the bytes at offsets `r_offset + 2` and `r_offset + 3`, is unchanged. -/
theorem half_word_patch (e : Buffer) (seg : grub_dl_segment) (symtab entsize rel : Nat)
    (m : Mem) (hb : r_offset e rel ≤ seg.size)
    (ht : ELF32_R_TYPE (r_info e rel) = R_PPC_ADDR16_LO
      ∨ ELF32_R_TYPE (r_info e rel) = R_PPC_ADDR16_HA) :
    (ELF32_R_TYPE (r_info e rel) = R_PPC_ADDR16_LO →
        (relocate_entry e seg symtab entsize rel m).2 (seg.addr + r_offset e rel)
            = to_u32 (((st_value e (reloc_sym e symtab entsize rel) : Nat) : Int)
                + r_addend e rel) % 65536 / 256
          ∧ (relocate_entry e seg symtab entsize rel m).2 (seg.addr + r_offset e rel + 1)
            = to_u32 (((st_value e (reloc_sym e symtab entsize rel) : Nat) : Int)
                + r_addend e rel) % 65536 % 256
          ∧ load16 (relocate_entry e seg symtab entsize rel m).2 (seg.addr + r_offset e rel)
            = to_u32 (((st_value e (reloc_sym e symtab entsize rel) : Nat) : Int)
                + r_addend e rel) % 65536)
      ∧ (ELF32_R_TYPE (r_info e rel) = R_PPC_ADDR16_HA →
        (relocate_entry e seg symtab entsize rel m).2 (seg.addr + r_offset e rel)
            = (to_u32 (((st_value e (reloc_sym e symtab entsize rel) : Nat) : Int)
                + r_addend e rel + 0x8000) >>> 16) / 256
          ∧ (relocate_entry e seg symtab entsize rel m).2 (seg.addr + r_offset e rel + 1)
            = (to_u32 (((st_value e (reloc_sym e symtab entsize rel) : Nat) : Int)
                + r_addend e rel + 0x8000) >>> 16) % 256
          ∧ load16 (relocate_entry e seg symtab entsize rel m).2 (seg.addr + r_offset e rel)
            = to_u32 (((st_value e (reloc_sym e symtab entsize rel) : Nat) : Int)
                + r_addend e rel + 0x8000) >>> 16)
      ∧ (relocate_entry e seg symtab entsize rel m).1 = GRUB_ERR_NONE
      ∧ (∀ x, x ≠ seg.addr + r_offset e rel → x ≠ seg.addr + r_offset e rel + 1 →
          (relocate_entry e seg symtab entsize rel m).2 x = m x)
      ∧ (relocate_entry e seg symtab entsize rel m).2 (seg.addr + r_offset e rel + 2)
        = m (seg.addr + r_offset e rel + 2)
      ∧ (relocate_entry e seg symtab entsize rel m).2 (seg.addr + r_offset e rel + 3)
        = m (seg.addr + r_offset e rel + 3) := by
  have hv : reloc_value e symtab entsize rel
      = to_u32 (((st_value e (reloc_sym e symtab entsize rel) : Nat) : Int)
          + r_addend e rel) := rfl
  have hlt := reloc_value_lt e symtab entsize rel
  have hha : (reloc_value e symtab entsize rel + 0x8000) % 4294967296
      = to_u32 (((st_value e (reloc_sym e symtab entsize rel) : Nat) : Int)
          + r_addend e rel + 0x8000) := by
    rw [hv]
    unfold to_u32
    omega
  have hframe : ∀ x, x ≠ seg.addr + r_offset e rel → x ≠ seg.addr + r_offset e rel + 1 →
      (relocate_entry e seg symtab entsize rel m).2 x = m x := by
    intro x h0 h1
    apply relocate_entry_frame
    unfold reloc_addr
    rcases ht with ht | ht
    · rw [ht, reloc_width_lo]
      omega
    · rw [ht, reloc_width_ha]
      omega
  have hok : (relocate_entry e seg symtab entsize rel m).1 = GRUB_ERR_NONE := by
    rcases ht with ht | ht
    · rw [relocate_entry_lo e seg symtab entsize rel m hb ht]
    · rw [relocate_entry_ha e seg symtab entsize rel m hb ht]
  refine ⟨?_, ?_, hok, hframe, hframe _ (by omega) (by omega), hframe _ (by omega) (by omega)⟩
  · intro hlo
    rw [relocate_entry_lo e seg symtab entsize rel m hb hlo, ← hv]
    have hbytes := store16_bytes m (reloc_addr e seg rel) (reloc_value e symtab entsize rel)
    have hload := load16_store16 m (reloc_addr e seg rel) (reloc_value e symtab entsize rel)
    unfold reloc_addr at hbytes hload
    simp only []
    unfold reloc_addr
    rw [hbytes.1, hbytes.2, hload]
    refine ⟨?_, ?_, rfl⟩ <;> omega
  · intro hhi
    rw [relocate_entry_ha e seg symtab entsize rel m hb hhi, ← hha]
    have hbytes := store16_bytes m (reloc_addr e seg rel)
      (((reloc_value e symtab entsize rel + 0x8000) % 4294967296) >>> 16)
    have hload := load16_store16 m (reloc_addr e seg rel)
      (((reloc_value e symtab entsize rel + 0x8000) % 4294967296) >>> 16)
    unfold reloc_addr at hbytes hload
    simp only []
    unfold reloc_addr
    rw [hbytes.1, hbytes.2, hload]
    rw [Nat.shiftRight_eq_div_pow]
    refine ⟨?_, ?_, ?_⟩ <;> omega

/-- Witness of C18: over memory holding `0x48000001` at `0x1000`, the
`R_PPC_ADDR16_HA` entry of `ha_lo_object` at offset 0 stores `0x12 0x35` and
leaves the bytes `0x00 0x01` at offsets 2 and 3. -/
theorem half_word_patch_witness :
    load32 branch_mem 0x1000 = 0x48000001
      ∧ load32 (relocate_entry ha_lo_object ⟨0x1000, 4, 1⟩ 132 16 148 branch_mem).2 0x1000
        = 0x12350001
      ∧ (relocate_entry ha_lo_object ⟨0x1000, 4, 1⟩ 132 16 148 branch_mem).2
          ((⟨0x1000, 4, 1⟩ : grub_dl_segment).addr + r_offset ha_lo_object 148 + 3)
        = branch_mem ((⟨0x1000, 4, 1⟩ : grub_dl_segment).addr + r_offset ha_lo_object 148 + 3) :=
  ⟨by decide, by decide,
   (half_word_patch ha_lo_object ⟨0x1000, 4, 1⟩ 132 16 148 branch_mem (by decide)
      (Or.inr (by decide))).2.2.2.2.2⟩

/-- C19: when the first loop finds a symbol table, its header `S` is the first
header in table order with `sh_type = SHT_SYMTAB`, and the call is the second
loop run with `S.sh_offset` and `S.sh_entsize` only, so no later symbol table is
consulted.  For every entry the symbol value used is the 32-bit field at byte
offset 4 of the record at offset `S.sh_offset + S.sh_entsize * (r_info >> 8)`
from `ehdr` (a 32-bit pointer), the stride being `S.sh_entsize`: the relocated
value is that field plus the addend, and an `R_PPC_ADDR32` entry that passes the
bounds check stores exactly it. -/
theorem symbol_resolution (mod : grub_dl_t) (e : Buffer) (m : Mem) (s : Nat)
    (hs : find_symtab e (e_shnum e) (e_shoff e) = some s) :
    (∃ i, i < e_shnum e ∧ s = e_shoff e + i * e_shentsize e ∧ sh_type e s = SHT_SYMTAB
        ∧ ∀ j, j < i → sh_type e (e_shoff e + j * e_shentsize e) ≠ SHT_SYMTAB)
      ∧ grub_arch_dl_relocate_symbols mod e m
        = relocate_sections mod e (sh_offset e s) (sh_entsize e s) (e_shnum e) (e_shoff e) m
      ∧ ((grub_arch_dl_relocate_symbols mod e m).1 ≠ undefined →
          grub_arch_dl_relocate_symbols mod e m
            = run_entries e (sh_offset e s) (sh_entsize e s) (all_entries mod e) m)
      ∧ (∀ rel, reloc_value e (sh_offset e s) (sh_entsize e s) rel
          = to_u32 (((rd32 e (sh_offset e s
                + sh_entsize e s * (r_info e rel >>> 8) + 4) : Nat) : Int)
              + r_addend e rel))
      ∧ (∀ (seg : grub_dl_segment) (rel : Nat) (mm : Mem), r_offset e rel ≤ seg.size →
          ELF32_R_TYPE (r_info e rel) = R_PPC_ADDR32 →
          load32 (relocate_entry e seg (sh_offset e s) (sh_entsize e s) rel mm).2
              (seg.addr + r_offset e rel)
            = to_u32 (((rd32 e (sh_offset e s
                + sh_entsize e s * (r_info e rel >>> 8) + 4) : Nat) : Int)
              + r_addend e rel)) := by
  have hval : ∀ rel, reloc_value e (sh_offset e s) (sh_entsize e s) rel
      = to_u32 (((rd32 e (sh_offset e s
            + sh_entsize e s * (r_info e rel >>> 8) + 4) : Nat) : Int)
          + r_addend e rel) := by
    intro rel
    unfold reloc_value
    rw [st_value_reloc_sym]
  refine ⟨find_symtab_some e _ _ s hs, ?_, ?_, hval, ?_⟩
  · unfold grub_arch_dl_relocate_symbols
    rw [hs]
  · intro hdef
    exact relocate_symbols_eq_run mod e m s hs hdef
  · intro seg rel mm hb ht
    rw [relocate_entry_addr32 e seg (sh_offset e s) (sh_entsize e s) rel mm hb ht]
    simp only []
    have := load32_store32 mm (reloc_addr e seg rel)
      (reloc_value e (sh_offset e s) (sh_entsize e s) rel)
    unfold reloc_addr at this ⊢
    rw [this, Nat.mod_eq_of_lt (reloc_value_lt _ _ _ _), hval]

/-- Witness of C19: in `stride_object` the first symbol table has
`sh_entsize = 32`; the entry names symbol index 1, whose record is at offset
`172 + 32 * 1 = 204`, and the word stored is its value `0x11223344`, neither the
zero found at stride 16 nor the value `0x99999999` of the second symbol table. -/
theorem symbol_resolution_witness :
    sh_entsize stride_object 52 = 32
      ∧ sh_type stride_object 132 = SHT_SYMTAB
      ∧ st_value stride_object (172 + 16 * 1) = 0
      ∧ st_value stride_object (172 + 32 * 1) = 0x11223344
      ∧ load32 (grub_arch_dl_relocate_symbols one_segment stride_object zero_mem).2 0x1000
        = 0x11223344
      ∧ reloc_value stride_object (sh_offset stride_object 52)
          (sh_entsize stride_object 52) 236
        = to_u32 (((rd32 stride_object (sh_offset stride_object 52
              + sh_entsize stride_object 52 * (r_info stride_object 236 >>> 8) + 4) : Nat)
            : Int) + r_addend stride_object 236) :=
  ⟨by decide, by decide, by decide, by decide, by decide,
   (symbol_resolution one_segment stride_object zero_mem 52 (by decide)).2.2.2.1 236⟩

/-- C20 (as stated, refuted): `wrapping_count_object` is accepted by the header
check; its `SHT_RELA` section has a loaded target, `sh_entsize = 1` and
`sh_size / sh_entsize = 2 ^ 31`, and its first record would be applied without
error.  But the end pointer `max = rel + 2 ^ 31`, advanced by `12 * 2 ^ 31` bytes
in 32-bit arithmetic, equals `rel`: the loop processes no entry, and the call
returns `GRUB_ERR_NONE` with memory unchanged. -/
theorem entry_count_wraps :
    grub_arch_dl_check_header wrapping_count_object 172 = 1
      ∧ sh_type wrapping_count_object 92 = SHT_RELA
      ∧ find_segment one_segment (sh_info wrapping_count_object 92) = some ⟨0x1000, 4, 1⟩
      ∧ sh_entsize wrapping_count_object 92 = 1
      ∧ sh_size wrapping_count_object 92 / sh_entsize wrapping_count_object 92 = 2147483648
      ∧ (relocate_entry wrapping_count_object ⟨0x1000, 4, 1⟩ 132 16 148 zero_mem).1
        = GRUB_ERR_NONE
      ∧ entries_max wrapping_count_object 92
        = (wrapping_count_object.base + sh_offset wrapping_count_object 92) % 4294967296
      ∧ section_entries one_segment wrapping_count_object 92 = []
      ∧ (grub_arch_dl_relocate_symbols one_segment wrapping_count_object zero_mem).1
        = GRUB_ERR_NONE
      ∧ load32 (grub_arch_dl_relocate_symbols one_segment wrapping_count_object zero_mem).2
          0x1000 = 0
      ∧ (section_entries one_segment wrapping_count_object 92).length
        ≠ sh_size wrapping_count_object 92 / sh_entsize wrapping_count_object 92 := by
  decide

/-- C20 (amended): let the header at offset `s` be an `SHT_RELA` section whose
target has the loaded segment `seg`.  If `sh_entsize = 0` the count is a division
by zero and the loop over the headers yields the undefined outcome.  Otherwise
the innermost loop leaves through its test and is a run over the entries it
visits; these are at most `sh_size / sh_entsize`, the `k`-th being the 12-byte
record at offset `sh_offset + 12 * k` (a 32-bit pointer offset), and exactly
`sh_size / sh_entsize` when the end pointer does not wrap, that is when
`(ehdr + sh_offset) mod 2 ^ 32 + 12 * (sh_size / sh_entsize) < 2 ^ 32`.  The loop
applies the first `j` of the visited entries: all of them when it returns no
error, and else it returns the error of entry `j`.  Each of the two loops over
the section headers reads a prefix of the headers at `e_shoff + i * e_shentsize`,
`i < e_shnum`, so the call reads each header at most twice. -/
theorem relocation_loop_count (mod : grub_dl_t) (e : Buffer) (symtab entsize n s : Nat)
    (m : Mem) (seg : grub_dl_segment)
    (hrela : sh_type e s = SHT_RELA)
    (hseg : find_segment mod (sh_info e s) = some seg) :
    (sh_entsize e s = 0 →
        relocate_sections mod e symtab entsize (n + 1) s m = (undefined, m))
      ∧ (sh_entsize e s ≠ 0 →
        relocate_entries e seg symtab entsize (entries_max e s)
              (sh_size e s / sh_entsize e s + 1) (sh_offset e s) m
            = run_entries e symtab entsize (section_entries mod e s) m
          ∧ (section_entries mod e s).length ≤ sh_size e s / sh_entsize e s
          ∧ (∀ k p, (section_entries mod e s)[k]? = some p →
              p = (seg, (sh_offset e s + 12 * k) % 4294967296))
          ∧ ((e.base + sh_offset e s) % 4294967296 + 12 * (sh_size e s / sh_entsize e s)
                < 4294967296 →
              (section_entries mod e s).length = sh_size e s / sh_entsize e s)
          ∧ ∃ j, j ≤ (section_entries mod e s).length
            ∧ (run_entries e symtab entsize (section_entries mod e s) m).2
              = apply_entries e symtab entsize ((section_entries mod e s).take j) m
            ∧ ((run_entries e symtab entsize (section_entries mod e s) m).1 = GRUB_ERR_NONE →
                j = (section_entries mod e s).length)
            ∧ ((run_entries e symtab entsize (section_entries mod e s) m).1 ≠ GRUB_ERR_NONE →
                ∃ p, (section_entries mod e s)[j]? = some p
                  ∧ relocate_entry e p.1 symtab entsize p.2
                      (run_entries e symtab entsize (section_entries mod e s) m).2
                    = run_entries e symtab entsize (section_entries mod e s) m))
      ∧ (find_symtab_traced e (e_shnum e) (e_shoff e)).1
          = find_symtab e (e_shnum e) (e_shoff e)
      ∧ (relocate_sections_traced mod e symtab entsize (e_shnum e) (e_shoff e) m).1
          = relocate_sections mod e symtab entsize (e_shnum e) (e_shoff e) m
      ∧ (find_symtab_traced e (e_shnum e) (e_shoff e)).2
          <+: (List.range (e_shnum e)).map (fun i => e_shoff e + i * e_shentsize e)
      ∧ (relocate_sections_traced mod e symtab entsize (e_shnum e) (e_shoff e) m).2
          <+: (List.range (e_shnum e)).map (fun i => e_shoff e + i * e_shentsize e)
      ∧ (find_symtab_traced e (e_shnum e) (e_shoff e)).2.length
          + (relocate_sections_traced mod e symtab entsize (e_shnum e) (e_shoff e) m).2.length
        ≤ 2 * e_shnum e := by
  have hp1 := find_symtab_traced_prefix e (e_shnum e) (e_shoff e)
  have hp2 := relocate_sections_traced_prefix mod e symtab entsize (e_shnum e) (e_shoff e) m
  refine ⟨?_, ?_, find_symtab_traced_fst e _ _,
    relocate_sections_traced_fst mod e symtab entsize _ _ m, hp1, hp2, ?_⟩
  · intro hz
    rw [relocate_sections, if_pos hrela, hseg]
    simp only []
    rw [if_pos hz]
  · intro _
    have hl : section_entries mod e s
        = (entry_offsets e.base (entries_max e s) (sh_size e s / sh_entsize e s + 1)
            (sh_offset e s)).map (fun rel => (seg, rel)) := by
      unfold section_entries
      rw [if_pos hrela, hseg]
    have hmax := entries_max_eq e s
    have hoff : sh_offset e s < 4294967296 := rd32_lt e _
    refine ⟨?_, ?_, ?_, ?_, ?_⟩
    · rw [hl]
      exact relocate_entries_eq_run e seg symtab entsize (entries_max e s) _ _
        (sh_size e s / sh_entsize e s) m hmax (Nat.lt_succ_self _)
    · rw [hl, List.length_map]
      exact entry_offsets_length_le _ _ _ _ _ hmax
    · intro k p hk
      rw [hl, List.getElem?_map] at hk
      cases hr : (entry_offsets e.base (entries_max e s) (sh_size e s / sh_entsize e s + 1)
          (sh_offset e s))[k]? with
      | none =>
        rw [hr] at hk
        simp at hk
      | some r =>
        rw [hr] at hk
        have hrv := entry_offsets_get _ _ _ _ k r hoff hr
        unfold sizeof_Elf32_Rela at hrv
        simp only [Option.map_some', Option.some.injEq] at hk
        rw [← hk, hrv]
    · intro hno
      rw [hl, List.length_map]
      apply entry_offsets_length_eq _ _ _ _ _ _ _ (Nat.lt_succ_self _)
      · unfold entries_max sizeof_Elf32_Rela
        omega
      · unfold sizeof_Elf32_Rela
        omega
    · cases hout : (run_entries e symtab entsize (section_entries mod e s) m).1 with
      | GRUB_ERR_NONE =>
        refine ⟨(section_entries mod e s).length, Nat.le_refl _, ?_, fun _ => rfl,
          fun h => absurd rfl h⟩
        rw [List.take_length]
        exact run_entries_ok e symtab entsize _ m hout
      | undefined => exact absurd hout (run_entries_defined e symtab entsize _ m)
      | GRUB_ERR_BAD_MODULE msg =>
        obtain ⟨k, seg', rel', hk, hfail, _, happ⟩ :=
          run_entries_error e symtab entsize (section_entries mod e s) m msg hout
        have hkl : k < (section_entries mod e s).length := by
          by_contra hge
          rw [List.getElem?_eq_none (by omega)] at hk
          simp at hk
        refine ⟨k, Nat.le_of_lt hkl, happ.symm, fun h => by simp at h,
          fun _ => ⟨(seg', rel'), hk, ?_⟩⟩
        rw [hfail]
        exact Prod.ext hout.symm rfl
  · have h1 := hp1.length_le
    have h2 := hp2.length_le
    rw [List.length_map, List.length_range] at h1 h2
    omega

/-- Witness of C20 (amended): in `floor_count_object` the section has
`sh_size = 30` and `sh_entsize = 12`, the end pointer does not wrap, and two
entries are processed, at offsets 148 and 160; in `zero_entsize_object` the
division by zero gives the undefined outcome. -/
theorem relocation_loop_count_witness :
    sh_size floor_count_object 92 = 30
      ∧ section_entries one_segment floor_count_object 92
        = [(⟨0x1000, 4, 1⟩, 148), (⟨0x1000, 4, 1⟩, 160)]
      ∧ load32 (grub_arch_dl_relocate_symbols one_segment floor_count_object zero_mem).2
          0x1000 = 0x33443344
      ∧ (grub_arch_dl_relocate_symbols one_segment zero_entsize_object zero_mem).1 = undefined
      ∧ (section_entries one_segment floor_count_object 92).length
        = sh_size floor_count_object 92 / sh_entsize floor_count_object 92 :=
  ⟨by decide, by decide, by decide, by decide,
   ((relocation_loop_count one_segment floor_count_object 132 16 0 92 zero_mem
      ⟨0x1000, 4, 1⟩ (by decide) (by decide)).2.1 (by decide)).2.2.2.1 (by decide)⟩

end Grub
